import Mathlib

/-!
# Shallow embedding of the `PhysicsEngine` of the ThreeJS-Game repository

The definitions below translate, statement by statement, the physics engine
(`PhysicsEngine`, `src/unnamed/part_000`) into Lean.

Modelling conventions:

* JavaScript numbers are modelled as rationals (`ℚ`).  `Math.sqrt` — which has
  no exact rational counterpart — is modelled by an explicit square-root
  parameter `sq : ℚ → ℚ` threaded through every function that calls it
  (`Vector3.length`, `Vector3.normalize`, `Vector3.distanceTo`).  Concrete
  evaluations instantiate `sq` with `ratSqrt`, which agrees with the real
  square root on perfect rational squares; every concrete evaluation in this
  file applies `sq` only to perfect squares, so on those runs the model
  computes exactly what the JavaScript code computes.
* A mesh is taken to be a box-geometry mesh whose geometry is centred at the
  object's origin (as `BoxGeometry` is), so `Box3.setFromObject(mesh)` becomes
  `boxFromCenterHalf position halfExtents`, where `halfExtents` are the fixed
  half-extents of the mesh geometry.
* The registries (`physicsBodies` Map, `collisionObjects`,
  `interactableObjects` arrays) become lists traversed in order; JavaScript
  `Map` iteration is in insertion order, so list order models it, and object
  identity (`===`) becomes index equality.
* Mutation is modelled by explicit state passing; every loop that mutates
  while iterating re-reads the current list entry at each step exactly as the
  live JavaScript objects would be re-read through their references.
* The engine's externally observable actions (which body was integrated,
  which collision was resolved, which callback fired) are recorded in an
  event trace returned next to the state, in the order in which the code
  performs them.  Callbacks (`onItemCollected`, `onTriggerActivated`) are
  modelled by their trace events.
* `Math.min(deltaTime, 1/30)` is written as an explicit conditional with the
  same value.
-/

namespace ThreeGame

/-- 3D vector over ℚ (three.js `Vector3`). -/
@[ext]
structure Vec3 where
  x : ℚ
  y : ℚ
  z : ℚ
deriving DecidableEq

def Vec3.zero : Vec3 := ⟨0, 0, 0⟩

def Vec3.add (a b : Vec3) : Vec3 := ⟨a.x + b.x, a.y + b.y, a.z + b.z⟩

def Vec3.sub (a b : Vec3) : Vec3 := ⟨a.x - b.x, a.y - b.y, a.z - b.z⟩

/-- three.js `multiplyScalar`. -/
def Vec3.smul (a : Vec3) (s : ℚ) : Vec3 := ⟨a.x * s, a.y * s, a.z * s⟩

/-- three.js `divideScalar`. -/
def Vec3.divScalar (a : Vec3) (s : ℚ) : Vec3 := ⟨a.x / s, a.y / s, a.z / s⟩

def Vec3.dot (a b : Vec3) : ℚ := a.x * b.x + a.y * b.y + a.z * b.z

def Vec3.lengthSq (a : Vec3) : ℚ := a.dot a

/-- three.js `Vector3.length`, with the square root `sq` made explicit. -/
def Vec3.length (sq : ℚ → ℚ) (a : Vec3) : ℚ := sq a.lengthSq

/-- three.js `Vector3.normalize`: `divideScalar(length() || 1)`. -/
def Vec3.normalize (sq : ℚ → ℚ) (a : Vec3) : Vec3 :=
  a.divScalar (if a.length sq = 0 then 1 else a.length sq)

/-- three.js `Vector3.distanceTo`. -/
def Vec3.distanceTo (sq : ℚ → ℚ) (a b : Vec3) : ℚ := (a.sub b).length sq

/-- `Math.sign`. -/
def msign (q : ℚ) : ℚ := if 0 < q then 1 else if q < 0 then -1 else 0

/-- Floor of the natural square root (linear search; used only on small
inputs of concrete evaluations). -/
def natSqrtFloor (n : Nat) : Nat :=
  ((List.range (n + 1)).filter (fun k => k * k ≤ n)).getLastD 0

/-- The square-root instance used for concrete runs: exact on every rational
that is the square of a rational (in particular on `0`, `1`, `1/4`, `81/100`,
the only values any concrete evaluation below takes a square root of). -/
def ratSqrt (q : ℚ) : ℚ :=
  if 0 ≤ q then (natSqrtFloor q.num.natAbs : ℚ) / (natSqrtFloor q.den : ℚ) else 0

/-- three.js `Box3` (axis-aligned box, corners `lo = min`, `hi = max`). -/
@[ext]
structure Box3 where
  lo : Vec3
  hi : Vec3
deriving DecidableEq

/-- three.js `Box3.getCenter`: `(min + max) * 0.5`. -/
def Box3.getCenter (b : Box3) : Vec3 := (b.lo.add b.hi).smul (1/2)

/-- three.js `Box3.getSize`: `max - min`. -/
def Box3.getSize (b : Box3) : Vec3 := b.hi.sub b.lo

/-- three.js `Box3.intersectsBox` (touching boxes count as intersecting). -/
def Box3.intersectsBox (a b : Box3) : Bool :=
  !(decide (b.hi.x < a.lo.x) || decide (a.hi.x < b.lo.x) ||
    decide (b.hi.y < a.lo.y) || decide (a.hi.y < b.lo.y) ||
    decide (b.hi.z < a.lo.z) || decide (a.hi.z < b.lo.z))

/-- `Box3.setFromObject` for a box mesh with the given world position and
geometry half-extents. -/
def boxFromCenterHalf (c h : Vec3) : Box3 := ⟨c.sub h, c.add h⟩

/-- A `bodyData` record as built by `createRigidBody` (the mesh is
represented by its `position` and the fixed `halfExtents` of its geometry). -/
structure Body where
  position : Vec3
  velocity : Vec3
  acceleration : Vec3
  mass : ℚ
  isStatic : Bool
  useGravity : Bool
  damping : ℚ
  friction : ℚ
  halfExtents : Vec3
  boundingBox : Box3
  onGround : Bool
  collisionRadius : ℚ
deriving DecidableEq

/-- A `collisionData` record (`addCollisionObject`): static, so only its
fixed bounding box matters. -/
structure Obstacle where
  boundingBox : Box3
deriving DecidableEq

/-- An `interactableData` record (`addInteractableObject`).  `itype` is the
`type` string dispatched on by `handleInteraction`. -/
structure Interactable where
  position : Vec3
  itype : String
  collected : Bool
deriving DecidableEq

/-- The engine state: configuration fields of `PhysicsEngine` plus its three
registries. -/
structure World where
  gravity : Vec3
  groundLevel : ℚ
  skinWidth : ℚ
  damping : ℚ
  friction : ℚ
  bodies : List Body
  obstacles : List Obstacle
  interactables : List Interactable
deriving DecidableEq

/-- Trace of the engine's observable actions, in execution order. -/
inductive Event where
  | integrated (bodyIdx : Nat)
  | staticResolved (bodyIdx obstacleIdx : Nat)
  | dynResolved (bodyIdx otherIdx : Nat)
  | itemCollected (itemIdx : Nat)
  | triggerActivated (itemIdx bodyIdx : Nat)
  | unknownInteraction (itemIdx : Nat)
deriving DecidableEq

/-- `options.mass || default` — JavaScript `||` falls back on `0` (falsy)
and on an absent field. -/
def orDefaultQ (o : Option ℚ) (d : ℚ) : ℚ :=
  match o with
  | none => d
  | some v => if v = 0 then d else v

/-- The `options` object accepted by `createRigidBody`. -/
structure BodyOptions where
  mass : Option ℚ
  isStatic : Option Bool
  useGravity : Option Bool
  damping : Option ℚ
  friction : Option ℚ
  collisionRadius : Option ℚ
deriving DecidableEq

/-- `createRigidBody(mesh, options)`: builds the body record with the `||`
defaults of the source (`useGravity: options.useGravity !== false`). -/
def createRigidBody (w : World) (pos half : Vec3) (o : BodyOptions) : Body :=
  { position := pos
    velocity := Vec3.zero
    acceleration := Vec3.zero
    mass := orDefaultQ o.mass 1
    isStatic := match o.isStatic with | none => false | some b => b
    useGravity := match o.useGravity with | some false => false | _ => true
    damping := orDefaultQ o.damping w.damping
    friction := orDefaultQ o.friction w.friction
    halfExtents := half
    boundingBox := boxFromCenterHalf pos half
    onGround := false
    collisionRadius := orDefaultQ o.collisionRadius (1/2) }

/-- `applyForce(body, force)`: `acceleration += force / mass`. -/
def applyForce (b : Body) (force : Vec3) : Body :=
  { b with acceleration := b.acceleration.add (force.divScalar b.mass) }

/-- `applyImpulse(body, impulse)`: `velocity += impulse / mass`. -/
def applyImpulse (b : Body) (impulse : Vec3) : Body :=
  { b with velocity := b.velocity.add (impulse.divScalar b.mass) }

/-- Acceleration effective in `updateRigidBody` after the gravity line. -/
def effectiveAccel (w : World) (b : Body) : Vec3 :=
  if b.useGravity then b.acceleration.add w.gravity else b.acceleration

/-- The velocity after `velocity += acceleration*dt; velocity *= damping`. -/
def integratedVel (w : World) (b : Body) (dt : ℚ) : Vec3 :=
  (b.velocity.add ((effectiveAccel w b).smul dt)).smul b.damping

/-- The position after `position += velocity*dt` (before the ground clamp). -/
def integratedPos (w : World) (b : Body) (dt : ℚ) : Vec3 :=
  b.position.add ((integratedVel w b dt).smul dt)

/-- `updateRigidBody(body, deltaTime)` (integration step with ground clamp;
note that when the clamp fires with a non-negative vertical velocity the
source leaves `onGround` untouched). -/
def updateRigidBody (w : World) (b : Body) (dt : ℚ) : Body :=
  let vel1 := integratedVel w b dt
  let pos1 := integratedPos w b dt
  if pos1.y ≤ w.groundLevel + b.collisionRadius then
    let pos2 : Vec3 := ⟨pos1.x, w.groundLevel + b.collisionRadius, pos1.z⟩
    if vel1.y < 0 then
      { b with position := pos2, velocity := ⟨vel1.x, 0, vel1.z⟩,
               acceleration := Vec3.zero, onGround := true,
               boundingBox := boxFromCenterHalf pos2 b.halfExtents }
    else
      { b with position := pos2, velocity := vel1,
               acceleration := Vec3.zero,
               boundingBox := boxFromCenterHalf pos2 b.halfExtents }
  else
    { b with position := pos1, velocity := vel1,
             acceleration := Vec3.zero, onGround := false,
             boundingBox := boxFromCenterHalf pos1 b.halfExtents }

/-- The integration loop of `update`: every non-static body is stepped (each
body's step is independent of the others). -/
def integrateAll (w : World) (dt : ℚ) : World × List Event :=
  ({ w with bodies := w.bodies.map (fun b => if b.isStatic then b else updateRigidBody w b dt) },
   w.bodies.enum.filterMap (fun p => if p.2.isStatic then none else some (Event.integrated p.1)))

/-- `checkCollision` (an AABB test on the stored bounding boxes). -/
def checkCollision (a b : Box3) : Bool := a.intersectsBox b

/-- Box-overlap along one axis (`(sizeA + sizeB)/2 - |separation|` of
`resolveCollision`), axis `0`, `1`, `2` = X, Y, Z. -/
def axisOverlap (i : Nat) (bA bB : Box3) : ℚ :=
  let sep := (bA.getCenter.sub bB.getCenter)
  let sA := bA.getSize
  let sB := bB.getSize
  if i = 0 then (sA.x + sB.x) / 2 - |sep.x|
  else if i = 1 then (sA.y + sB.y) / 2 - |sep.y|
  else (sA.z + sB.z) / 2 - |sep.z|

/-- The minimum-overlap search of `resolveCollision` (lines 195–206): start
from X, replace on strictly smaller absolute overlap by Y, then by Z.
Returns `(minOverlap, chosen axis index)`. -/
def minOverlapAxis (bA bB : Box3) : ℚ × Nat :=
  let r0 := (|axisOverlap 0 bA bB|, 0)
  let r1 := if |axisOverlap 1 bA bB| < r0.1 then (|axisOverlap 1 bA bB|, 1) else r0
  if |axisOverlap 2 bA bB| < r1.1 then (|axisOverlap 2 bA bB|, 2) else r1

def unitAxis (i : Nat) : Vec3 :=
  if i = 0 then ⟨1, 0, 0⟩ else if i = 1 then ⟨0, 1, 0⟩ else ⟨0, 0, 1⟩

/-- The `separationAxis` vector of `resolveCollision`: the chosen unit axis
signed by `Math.sign` of the separation component (the zero vector when that
component is zero). -/
def sepAxis (bA bB : Box3) : Vec3 :=
  let sep := bA.getCenter.sub bB.getCenter
  let i := (minOverlapAxis bA bB).2
  (unitAxis i).smul (msign (if i = 0 then sep.x else if i = 1 then sep.y else sep.z))

/-- `resolveCollision(body, obstacle)`.  Note the aliasing of the source:
`separationAxis.multiplyScalar(separationDistance)` mutates the axis in
place, so the later dot product and the velocity response use the *scaled*
axis (`axis2`). -/
def resolveCollision (sq : ℚ → ℚ) (skin : ℚ) (b : Body) (o : Obstacle) : Body :=
  let minOverlap := (minOverlapAxis b.boundingBox o.boundingBox).1
  let axis := sepAxis b.boundingBox o.boundingBox
  let separationDistance := (minOverlap + skin) * axis.length sq
  let axis2 := axis.smul separationDistance
  let pos1 := b.position.add axis2
  let velocityDotNormal := b.velocity.dot axis2
  let vel1 :=
    if velocityDotNormal < 0
    then b.velocity.add (axis2.smul (-velocityDotNormal * b.friction))
    else b.velocity
  { b with position := pos1, velocity := vel1,
           boundingBox := boxFromCenterHalf pos1 b.halfExtents }

/-- The fixed `restitution` of `resolveDynamicCollision`. -/
def restitutionConst : ℚ := 1/2

/-- `resolveDynamicCollision(bodyA, bodyB)`.  When the bodies are separating
(`velocityAlongNormal > 0`) the source `return`s *before* the bounding-box
refresh, so the moved positions keep their stale boxes on that path. -/
def resolveDynamicCollision (sq : ℚ → ℚ) (skin : ℚ) (a b : Body) : Body × Body :=
  let separation := a.boundingBox.getCenter.sub b.boundingBox.getCenter
  let distance := separation.length sq
  if 0 < distance then
    let n := separation.normalize sq
    let sd := (a.collisionRadius + b.collisionRadius - distance + skin) / 2
    let posA := a.position.add (n.smul sd)
    let posB := b.position.add (n.smul (-sd))
    let velAlongNormal := (a.velocity.sub b.velocity).dot n
    if 0 < velAlongNormal then
      ({ a with position := posA }, { b with position := posB })
    else
      let impulse := (1 + restitutionConst) * velAlongNormal / (a.mass + b.mass)
      ({ a with position := posA,
                velocity := a.velocity.add (n.smul (-impulse * b.mass)),
                boundingBox := boxFromCenterHalf posA a.halfExtents },
       { b with position := posB,
                velocity := b.velocity.add (n.smul (impulse * a.mass)),
                boundingBox := boxFromCenterHalf posB b.halfExtents })
  else
    ({ a with boundingBox := boxFromCenterHalf a.position a.halfExtents },
     { b with boundingBox := boxFromCenterHalf b.position b.halfExtents })

/-- The static-collision loop run for one non-static body `i` of
`handleCollisions`: obstacles tested in order against the body's current
box, resolving on hit. -/
def staticPassAux (sq : ℚ → ℚ) (skin : ℚ) (i : Nat) :
    List (Nat × Obstacle) → Body → Body × List Event
  | [], b => (b, [])
  | (j, o) :: rest, b =>
    if checkCollision b.boundingBox o.boundingBox then
      let r := staticPassAux sq skin i rest (resolveCollision sq skin b o)
      (r.1, Event.staticResolved i j :: r.2)
    else staticPassAux sq skin i rest b

/-- The dynamic-collision loop run for one non-static body `i`: every other
body (by current state) is tested; `otherBody === body` becomes `k = i`. -/
def dynPassAux (sq : ℚ → ℚ) (skin : ℚ) (i : Nat) :
    List Nat → List Body → List Body × List Event
  | [], bodies => (bodies, [])
  | k :: rest, bodies =>
    if k = i then dynPassAux sq skin i rest bodies
    else
      match bodies[i]?, bodies[k]? with
      | some bi, some bk =>
        if bk.isStatic then dynPassAux sq skin i rest bodies
        else if checkCollision bi.boundingBox bk.boundingBox then
          let pr := resolveDynamicCollision sq skin bi bk
          let r := dynPassAux sq skin i rest ((bodies.set i pr.1).set k pr.2)
          (r.1, Event.dynResolved i k :: r.2)
        else dynPassAux sq skin i rest bodies
      | _, _ => dynPassAux sq skin i rest bodies

/-- The outer loop of `handleCollisions`: per body, first its static pass,
then its dynamic pass, mutations visible to the following bodies. -/
def collisionPassAux (sq : ℚ → ℚ) (skin : ℚ) (obs : List Obstacle) :
    List Nat → List Body → List Body × List Event
  | [], bodies => (bodies, [])
  | i :: rest, bodies =>
    match bodies[i]? with
    | none => collisionPassAux sq skin obs rest bodies
    | some bi =>
      if bi.isStatic then collisionPassAux sq skin obs rest bodies
      else
        let rs := staticPassAux sq skin i obs.enum bi
        let bodies1 := bodies.set i rs.1
        let rd := dynPassAux sq skin i (List.range bodies1.length) bodies1
        let rr := collisionPassAux sq skin obs rest rd.1
        (rr.1, rs.2 ++ (rd.2 ++ rr.2))

/-- `handleCollisions()`. -/
def handleCollisions (sq : ℚ → ℚ) (w : World) : World × List Event :=
  let r := collisionPassAux sq w.skinWidth w.obstacles (List.range w.bodies.length) w.bodies
  ({ w with bodies := r.1 }, r.2)

/-- `collectItem(body, item)`: flips `collected` and fires the
item-collected callback only when the item is not yet collected (the scene
removal and pickup animation are external side effects outside the model). -/
def collectItem (j : Nat) (items : List Interactable) : List Interactable × List Event :=
  match items[j]? with
  | some it =>
    if it.collected = false
    then (items.set j { it with collected := true }, [Event.itemCollected j])
    else (items, [])
  | none => (items, [])

/-- `handleInteraction`'s `switch (interactable.type)`. -/
def handleInteraction (bodyIdx j : Nat) (ty : String) (items : List Interactable) :
    List Interactable × List Event :=
  if ty = "item" then collectItem j items
  else if ty = "trigger" then (items, [Event.triggerActivated j bodyIdx])
  else (items, [Event.unknownInteraction j])

/-- `checkInteractions(body)`: every interactable in order, skipping the
collected ones, interaction range `2.0`. -/
def checkInteractionsAux (sq : ℚ → ℚ) (bodyIdx : Nat) (p : Vec3) :
    List Nat → List Interactable → List Interactable × List Event
  | [], items => (items, [])
  | j :: rest, items =>
    match items[j]? with
    | none => checkInteractionsAux sq bodyIdx p rest items
    | some it =>
      if it.collected = true then checkInteractionsAux sq bodyIdx p rest items
      else if Vec3.distanceTo sq p it.position < 2 then
        let r1 := handleInteraction bodyIdx j it.itype items
        let r2 := checkInteractionsAux sq bodyIdx p rest r1.1
        (r2.1, r1.2 ++ r2.2)
      else checkInteractionsAux sq bodyIdx p rest items

/-- `updateInteractions()`: *every* body of the registry (static ones
included — the loop has no `isStatic` filter) runs `checkInteractions`. -/
def interactionPassAux (sq : ℚ → ℚ) :
    List (Nat × Body) → List Interactable → List Interactable × List Event
  | [], items => (items, [])
  | (i, b) :: rest, items =>
    let r1 := checkInteractionsAux sq i b.position (List.range items.length) items
    let r2 := interactionPassAux sq rest r1.1
    (r2.1, r1.2 ++ r2.2)

def updateInteractions (sq : ℚ → ℚ) (w : World) : World × List Event :=
  let r := interactionPassAux sq w.bodies.enum w.interactables
  ({ w with interactables := r.1 }, r.2)

/-- The state `update(deltaTime)` has produced when the interaction pass
starts (integration plus collision handling, `deltaTime` clamped). -/
def midWorld (sq : ℚ → ℚ) (w : World) (dt : ℚ) : World :=
  (handleCollisions sq (integrateAll w (if dt ≤ 1/30 then dt else 1/30)).1).1

/-- `update(deltaTime)`: clamp the delta, integrate all bodies, handle
collisions, evaluate interactions; the trace lists the three passes'
events in order. -/
def update (sq : ℚ → ℚ) (w : World) (dt : ℚ) : World × List Event :=
  let cdt := if dt ≤ 1/30 then dt else 1/30
  let r1 := integrateAll w cdt
  let r2 := handleCollisions sq r1.1
  let r3 := updateInteractions sq r2.1
  (r3.1, r1.2 ++ (r2.2 ++ r3.2))

/-- A per-bone physics record of `createRagdoll`. -/
structure BoneBody where
  position : Vec3
  velocity : Vec3
  acceleration : Vec3
  mass : ℚ
  damping : ℚ
deriving DecidableEq

/-- A ragdoll aggregate (`createRagdoll` sets `isActive: false`; the inert
`joints` list is omitted). -/
structure Ragdoll where
  bones : List BoneBody
  isActive : Bool
deriving DecidableEq

/-- `applyForce` on a bone body (same formula as for rigid bodies). -/
def boneApplyForce (b : BoneBody) (force : Vec3) : BoneBody :=
  { b with acceleration := b.acceleration.add (force.divScalar b.mass) }

/-- `activateRagdoll(ragdollData)`: sets `isActive` and applies one sampled
force per bone (`forces` stands for the random samples). -/
def activateRagdoll (forces : Nat → Vec3) (r : Ragdoll) : Ragdoll :=
  { r with isActive := true,
           bones := r.bones.enum.map (fun p => boneApplyForce p.2 (forces p.1)) }

/-- One bone integration step of `updateRagdoll`. -/
def boneStep (gravity : Vec3) (dt : ℚ) (b : BoneBody) : BoneBody :=
  let acc1 := b.acceleration.add gravity
  let vel1 := (b.velocity.add (acc1.smul dt)).smul b.damping
  { b with position := b.position.add (vel1.smul dt),
           velocity := vel1, acceleration := Vec3.zero }

/-- `updateRagdoll(ragdollData, deltaTime)`: early return when dormant. -/
def updateRagdoll (gravity : Vec3) (r : Ragdoll) (dt : ℚ) : Ragdoll :=
  if r.isActive = false then r
  else { r with bones := r.bones.map (boneStep gravity dt) }

/-- The engine operations that touch an existing ragdoll. -/
inductive RagdollOp where
  | activate (forces : Nat → Vec3)
  | step (dt : ℚ)

def applyRagdollOp (gravity : Vec3) (op : RagdollOp) (r : Ragdoll) : Ragdoll :=
  match op with
  | .activate f => activateRagdoll f r
  | .step dt => updateRagdoll gravity r dt

/-! ## Concrete fixtures

A world with the engine's default configuration (`gravity (0,-9.81,0)`,
`groundLevel 0`, `skinWidth 0.1`, `damping 0.95`, `friction 0.8`) and a
default dynamic body factory (gravity disabled so that fixtures stay put
unless a scenario moves them). -/

def baseWorld : World :=
  { gravity := ⟨0, -981/100, 0⟩, groundLevel := 0, skinWidth := 1/10,
    damping := 95/100, friction := 8/10,
    bodies := [], obstacles := [], interactables := [] }

def mkDynBody (pos half : Vec3) : Body :=
  { position := pos, velocity := Vec3.zero, acceleration := Vec3.zero,
    mass := 1, isStatic := false, useGravity := false,
    damping := 95/100, friction := 8/10, halfExtents := half,
    boundingBox := boxFromCenterHalf pos half, onGround := false,
    collisionRadius := 1/2 }

/-! ## C1 — ground clamp -/

/-- Claim C1 as stated (spec side, for comparison): snapping always happens
at or below the ground line, a downward velocity is zeroed with
`onGround := true`, and *in every other case* `onGround` becomes `false`. -/
def groundClampClaimed (w : World) (b : Body) (dt : ℚ) : Prop :=
  ((integratedPos w b dt).y ≤ w.groundLevel + b.collisionRadius →
    (updateRigidBody w b dt).position.y = w.groundLevel + b.collisionRadius) ∧
  ((integratedPos w b dt).y ≤ w.groundLevel + b.collisionRadius ∧
      (integratedVel w b dt).y < 0 →
    (updateRigidBody w b dt).velocity.y = 0 ∧ (updateRigidBody w b dt).onGround = true) ∧
  (¬((integratedPos w b dt).y ≤ w.groundLevel + b.collisionRadius ∧
      (integratedVel w b dt).y < 0) →
    (updateRigidBody w b dt).onGround = false)

/-- A body resting exactly on the ground line with zero velocity and
`onGround = true` from an earlier step. -/
def restingBody : Body := { mkDynBody ⟨0, 1/2, 0⟩ ⟨1/2, 1/2, 1/2⟩ with onGround := true }

/-- A falling body strictly below the ground line. -/
def fallingBody : Body :=
  { mkDynBody ⟨0, 1/4, 0⟩ ⟨1/2, 1/2, 1/2⟩ with velocity := ⟨0, -1, 0⟩, useGravity := true }

/-- Body at `(0,1,0)`, radius `0.5`, mass `1`, zero velocity. -/
def pairBodyA : Body := mkDynBody ⟨0, 1, 0⟩ ⟨1/2, 1/2, 1/2⟩

/-- Body at `(0.5,1,0)`, radius `0.5`, mass `1`, zero velocity. -/
def pairBodyB : Body := mkDynBody ⟨1/2, 1, 0⟩ ⟨1/2, 1/2, 1/2⟩

/-- Claim C2 as stated (spec side, for comparison): push by
`(|minOverlap| + skinWidth)` along the signed unit axis, and for a velocity
pointing into the obstacle cancel the component along the unit axis and add
its magnitude scaled by `friction` back along that axis. -/
def staticResolutionClaimed (sq : ℚ → ℚ) (skin : ℚ) (b : Body) (o : Obstacle) : Prop :=
  (resolveCollision sq skin b o).position =
    b.position.add ((sepAxis b.boundingBox o.boundingBox).smul
      (|(minOverlapAxis b.boundingBox o.boundingBox).1| + skin)) ∧
  (b.velocity.dot (sepAxis b.boundingBox o.boundingBox) < 0 →
    (resolveCollision sq skin b o).velocity =
      (b.velocity.sub ((sepAxis b.boundingBox o.boundingBox).smul
        (b.velocity.dot (sepAxis b.boundingBox o.boundingBox)))).add
      ((sepAxis b.boundingBox o.boundingBox).smul
        (b.friction * |b.velocity.dot (sepAxis b.boundingBox o.boundingBox)|)))

/-- A body moving at `(1,0,0)` into an obstacle ahead of it on the X axis
(overlap `0.2`, friction `0.8`). -/
def pushBody : Body := { mkDynBody ⟨6/10, 1, 0⟩ ⟨1/2, 1/2, 1/2⟩ with velocity := ⟨1, 0, 0⟩ }

def pushObstacle : Obstacle := ⟨boxFromCenterHalf ⟨14/10, 1, 0⟩ ⟨1/2, 1/2, 1/2⟩⟩

/-- Claim C7 as stated (spec side, for comparison): for an intersecting
pair the recomputed overlap on the chosen axis after one `resolveCollision`
is at most the skin width. -/
def penetrationBoundClaimed (sq : ℚ → ℚ) (skin : ℚ) (b : Body) (o : Obstacle) : Prop :=
  checkCollision b.boundingBox o.boundingBox = true →
    axisOverlap (minOverlapAxis b.boundingBox o.boundingBox).2
      (resolveCollision sq skin b o).boundingBox o.boundingBox ≤ skin

/-- A thin body whose center is directly below the obstacle's center: the
X axis has the smallest overlap (`0.2`) but a zero X separation, so
`Math.sign` zeroes the push. -/
def flushBody : Body := mkDynBody ⟨0, 1, 0⟩ ⟨1/10, 1, 1⟩

def flushObstacle : Obstacle := ⟨boxFromCenterHalf ⟨0, 3/2, 0⟩ ⟨1/10, 1, 1⟩⟩

def Event.isIntegration : Event → Bool
  | .integrated _ => true
  | _ => false

def Event.isCollision : Event → Bool
  | .staticResolved _ _ => true
  | .dynResolved _ _ => true
  | _ => false

def Event.isInteraction : Event → Bool
  | .itemCollected _ => true
  | .triggerActivated _ _ => true
  | .unknownInteraction _ => true
  | _ => false

/-- Claim C3's global ordering (spec side, for comparison): in the trace of
one `update`, every static resolution precedes every dynamic resolution. -/
def staticBeforeDynClaimed (es : List Event) : Prop :=
  ∀ (p q i j a b : Nat), es[p]? = some (Event.staticResolved i j) →
    es[q]? = some (Event.dynResolved a b) → p < q

/-- Two overlapping dynamic bodies plus an obstacle placed so that body 1
is pushed into it by the body-0 dynamic resolution: body 0's dynamic pass
runs before body 1's static pass. -/
def orderWorld : World :=
  { baseWorld with
    bodies := [mkDynBody ⟨0, 1, 0⟩ ⟨1/2, 1/2, 1/2⟩, mkDynBody ⟨1/2, 1, 0⟩ ⟨1/2, 1/2, 1/2⟩],
    obstacles := [⟨boxFromCenterHalf ⟨17/10, 1, 0⟩ ⟨1/2, 1/2, 1/2⟩⟩] }

/-- Claim C4 as stated (spec side, for comparison): in a world whose bodies
are all static, one `update` fires no interaction event at all. -/
def interactionStaticClaimed : Prop :=
  ∀ (sq : ℚ → ℚ) (w : World) (dt : ℚ), (∀ b ∈ w.bodies, b.isStatic = true) →
    ∀ e ∈ (update sq w dt).2, Event.isInteraction e = false

/-- A world with a single *static* body sitting on an uncollected item. -/
def staticWorld : World :=
  { baseWorld with
    bodies := [{ mkDynBody ⟨0, 1, 0⟩ ⟨1/2, 1/2, 1/2⟩ with isStatic := true }],
    interactables := [⟨⟨0, 1, 0⟩, "item", false⟩] }

/-- A world with two dynamic bodies both within range of one item. -/
def collectWorld : World :=
  { baseWorld with
    bodies := [mkDynBody ⟨0, 1, 0⟩ ⟨1/2, 1/2, 1/2⟩, mkDynBody ⟨0, 1, 0⟩ ⟨1/2, 1/2, 1/2⟩],
    interactables := [⟨⟨0, 1, 0⟩, "item", false⟩] }

/-- C1, counterexample: for the resting body the step snaps with a
non-downward velocity — the claim's "every other case" — yet the source
leaves `onGround = true` rather than setting it `false`. -/
theorem c1_counterexample : ¬ groundClampClaimed baseWorld restingBody (1/60) := by
  intro h
  have h3 := h.2.2 (by with_unfolding_all decide)
  revert h3
  with_unfolding_all decide

/-- C1, amended: the clamp snaps the position and zeroes a downward
velocity with `onGround := true`; when it fires with a non-downward
velocity `onGround` keeps its previous value (it is *not* set to `false`);
above the ground line `onGround` becomes `false`.  The particular instance
holds under the step's standing conditions (no upward applied acceleration,
downward gravity, positive damping, non-negative delta). -/
theorem c1_ground_clamp (w : World) (b : Body) (dt : ℚ) :
    ((integratedPos w b dt).y ≤ w.groundLevel + b.collisionRadius →
      (updateRigidBody w b dt).position.y = w.groundLevel + b.collisionRadius ∧
      ((integratedVel w b dt).y < 0 →
        (updateRigidBody w b dt).velocity.y = 0 ∧
        (updateRigidBody w b dt).onGround = true) ∧
      (0 ≤ (integratedVel w b dt).y →
        (updateRigidBody w b dt).onGround = b.onGround ∧
        (updateRigidBody w b dt).velocity = integratedVel w b dt)) ∧
    (w.groundLevel + b.collisionRadius < (integratedPos w b dt).y →
      (updateRigidBody w b dt).onGround = false ∧
      (updateRigidBody w b dt).position = integratedPos w b dt) ∧
    (b.position.y < w.groundLevel + b.collisionRadius → b.velocity.y < 0 →
      b.acceleration.y ≤ 0 → w.gravity.y ≤ 0 → 0 < b.damping → 0 ≤ dt →
      (updateRigidBody w b dt).position.y = w.groundLevel + b.collisionRadius ∧
      (updateRigidBody w b dt).velocity.y = 0 ∧
      (updateRigidBody w b dt).onGround = true) := by
  have hmain : ∀ (hle : (integratedPos w b dt).y ≤ w.groundLevel + b.collisionRadius),
      (updateRigidBody w b dt).position.y = w.groundLevel + b.collisionRadius ∧
      ((integratedVel w b dt).y < 0 →
        (updateRigidBody w b dt).velocity.y = 0 ∧
        (updateRigidBody w b dt).onGround = true) ∧
      (0 ≤ (integratedVel w b dt).y →
        (updateRigidBody w b dt).onGround = b.onGround ∧
        (updateRigidBody w b dt).velocity = integratedVel w b dt) := by
    intro hle
    by_cases hv : (integratedVel w b dt).y < 0
    · refine ⟨?_, fun _ => ⟨?_, ?_⟩, fun hge => absurd hv (not_lt.mpr hge)⟩ <;>
        simp [updateRigidBody, if_pos hle, if_pos hv]
    · refine ⟨?_, fun h => absurd h hv, fun _ => ⟨?_, ?_⟩⟩ <;>
        simp [updateRigidBody, if_pos hle, if_neg hv]
  refine ⟨hmain, fun hgt => ?_, fun hpy hvy hay hgy hd hdt => ?_⟩
  · refine ⟨?_, ?_⟩ <;> simp [updateRigidBody, if_neg (not_le.mpr hgt)]
  · have haccy : (effectiveAccel w b).y ≤ 0 := by
      unfold effectiveAccel
      split
      · simp only [Vec3.add]; linarith
      · exact hay
    have hv1 : (integratedVel w b dt).y < 0 := by
      have hsum : b.velocity.y + (effectiveAccel w b).y * dt < 0 := by
        nlinarith
      simpa only [integratedVel, Vec3.add, Vec3.smul] using
        mul_neg_of_neg_of_pos hsum hd
    have hp1 : (integratedPos w b dt).y ≤ w.groundLevel + b.collisionRadius := by
      have : (integratedVel w b dt).y * dt ≤ 0 :=
        mul_nonpos_of_nonpos_of_nonneg (le_of_lt hv1) hdt
      simp only [integratedPos, Vec3.add, Vec3.smul]
      linarith
    obtain ⟨hpos, hdown, _⟩ := hmain hp1
    exact ⟨hpos, (hdown hv1).1, (hdown hv1).2⟩

/-- Witness for `c1_ground_clamp` at the falling body. -/
theorem c1_ground_clamp_witness :
    (updateRigidBody baseWorld fallingBody (1/60)).position.y = 1/2 ∧
    (updateRigidBody baseWorld fallingBody (1/60)).velocity.y = 0 ∧
    (updateRigidBody baseWorld fallingBody (1/60)).onGround = true := by
  have h := (c1_ground_clamp baseWorld fallingBody (1/60)).2.2
    (by with_unfolding_all decide) (by with_unfolding_all decide)
    (by with_unfolding_all decide) (by with_unfolding_all decide)
    (by with_unfolding_all decide) (by with_unfolding_all decide)
  have e : baseWorld.groundLevel + fallingBody.collisionRadius = 1/2 := by
    with_unfolding_all decide
  rw [e] at h
  exact h

/-! ## C10 — `createRigidBody` never produces a zero mass -/

/-- C10: a zero or omitted `mass` option falls back to `1.0` (and zero
`damping`/`friction` options fall back to the world defaults), so the mass
of a created body is never `0` and the divisions of `applyForce` and
`applyImpulse` on a created body never divide by a zero mass coming from a
zero or omitted option. -/
theorem c10_createRigidBody_mass (w : World) (pos half : Vec3) (o : BodyOptions)
    (f : Vec3) :
    (createRigidBody w pos half o).mass ≠ 0 ∧
    (o.mass = none ∨ o.mass = some 0 → (createRigidBody w pos half o).mass = 1) ∧
    (o.damping = none ∨ o.damping = some 0 →
      (createRigidBody w pos half o).damping = w.damping) ∧
    (o.friction = none ∨ o.friction = some 0 →
      (createRigidBody w pos half o).friction = w.friction) ∧
    (applyForce (createRigidBody w pos half o) f).acceleration =
      (createRigidBody w pos half o).acceleration.add
        (f.divScalar (createRigidBody w pos half o).mass) ∧
    (applyImpulse (createRigidBody w pos half o) f).velocity =
      (createRigidBody w pos half o).velocity.add
        (f.divScalar (createRigidBody w pos half o).mass) := by
  refine ⟨?_, ?_, ?_, ?_, rfl, rfl⟩
  · match h : o.mass with
    | none => simp [createRigidBody, orDefaultQ, h]
    | some v =>
      by_cases hv : v = 0
      · simp [createRigidBody, orDefaultQ, h, hv]
      · simp [createRigidBody, orDefaultQ, h, hv]
  · rintro (h | h) <;> simp [createRigidBody, orDefaultQ, h]
  · rintro (h | h) <;> simp [createRigidBody, orDefaultQ, h]
  · rintro (h | h) <;> simp [createRigidBody, orDefaultQ, h]

/-- Witness for `c10_createRigidBody_mass` at an all-zero options record. -/
theorem c10_createRigidBody_mass_witness :
    (createRigidBody baseWorld Vec3.zero ⟨1/2, 1/2, 1/2⟩
      ⟨some 0, none, none, some 0, some 0, none⟩).mass = 1 ∧
    (createRigidBody baseWorld Vec3.zero ⟨1/2, 1/2, 1/2⟩
      ⟨some 0, none, none, some 0, some 0, none⟩).damping = baseWorld.damping ∧
    (createRigidBody baseWorld Vec3.zero ⟨1/2, 1/2, 1/2⟩
      ⟨some 0, none, none, some 0, some 0, none⟩).friction = baseWorld.friction := by
  have h := c10_createRigidBody_mass baseWorld Vec3.zero ⟨1/2, 1/2, 1/2⟩
    ⟨some 0, none, none, some 0, some 0, none⟩ Vec3.zero
  exact ⟨h.2.1 (Or.inr rfl), h.2.2.1 (Or.inr rfl), h.2.2.2.1 (Or.inr rfl)⟩

/-! ## C9 — dormant ragdolls are untouched; activation is one-way -/

/-- C9: `updateRagdoll` on a dormant ragdoll returns it unchanged (every
bone's position, velocity and acceleration included), `activateRagdoll`
sets `isActive`, and no ragdoll operation of the engine ever resets
`isActive` to `false` once it is `true`. -/
theorem c9_ragdoll_dormant_and_one_way (g : Vec3) (r : Ragdoll) (dt : ℚ) :
    (r.isActive = false → updateRagdoll g r dt = r) ∧
    (∀ f, (activateRagdoll f r).isActive = true) ∧
    (∀ op, r.isActive = true → (applyRagdollOp g op r).isActive = true) := by
  refine ⟨fun h => ?_, fun f => rfl, fun op h => ?_⟩
  · simp [updateRagdoll, h]
  · cases op with
    | activate f => rfl
    | step dt' => simp [applyRagdollOp, updateRagdoll, h]

/-- Witness for `c9_ragdoll_dormant_and_one_way`: a one-bone dormant
ragdoll is untouched by `updateRagdoll`, and stays active once activated. -/
theorem c9_ragdoll_witness :
    updateRagdoll ⟨0, -981/100, 0⟩
      ⟨[⟨Vec3.zero, Vec3.zero, Vec3.zero, 1, 8/10⟩], false⟩ (1/60) =
      ⟨[⟨Vec3.zero, Vec3.zero, Vec3.zero, 1, 8/10⟩], false⟩ ∧
    (applyRagdollOp ⟨0, -981/100, 0⟩ (RagdollOp.step (1/60))
      ⟨[⟨Vec3.zero, Vec3.zero, Vec3.zero, 1, 8/10⟩], true⟩).isActive = true := by
  have h := c9_ragdoll_dormant_and_one_way ⟨0, -981/100, 0⟩
    ⟨[⟨Vec3.zero, Vec3.zero, Vec3.zero, 1, 8/10⟩], false⟩ (1/60)
  have h' := c9_ragdoll_dormant_and_one_way ⟨0, -981/100, 0⟩
    ⟨[⟨Vec3.zero, Vec3.zero, Vec3.zero, 1, 8/10⟩], true⟩ (1/60)
  exact ⟨h.1 rfl, h'.2.2 (RagdollOp.step (1/60)) rfl⟩

/-! ## C6 — coincident centers: dynamic resolution is skipped -/

/-- C6: when the two box centers coincide the zero-distance guard fails
(`distance = sq 0 = 0`), the whole response is skipped and both bodies come
back with unchanged positions and velocities — only their bounding boxes
are recomputed (lines 250–252 still run).  The model is a total function:
no exception can be raised. -/
theorem c6_zero_distance_skip (sq : ℚ → ℚ) (skin : ℚ) (a b : Body)
    (hsq : sq 0 = 0)
    (hc : a.boundingBox.getCenter = b.boundingBox.getCenter) :
    resolveDynamicCollision sq skin a b =
      ({ a with boundingBox := boxFromCenterHalf a.position a.halfExtents },
       { b with boundingBox := boxFromCenterHalf b.position b.halfExtents }) := by
  have hsep : a.boundingBox.getCenter.sub b.boundingBox.getCenter = Vec3.zero := by
    rw [hc]; simp [Vec3.sub, Vec3.zero]
  have hdist : (a.boundingBox.getCenter.sub b.boundingBox.getCenter).length sq = 0 := by
    rw [hsep]
    simpa [Vec3.length, Vec3.lengthSq, Vec3.dot, Vec3.zero] using hsq
  simp [resolveDynamicCollision, hdist]

/-- Witness for `c6_zero_distance_skip`: two coincident default bodies. -/
theorem c6_zero_distance_skip_witness :
    resolveDynamicCollision ratSqrt (1/10)
        (mkDynBody ⟨2, 1, 3⟩ ⟨1/2, 1/2, 1/2⟩) (mkDynBody ⟨2, 1, 3⟩ ⟨1/2, 1/2, 1/2⟩) =
      (mkDynBody ⟨2, 1, 3⟩ ⟨1/2, 1/2, 1/2⟩, mkDynBody ⟨2, 1, 3⟩ ⟨1/2, 1/2, 1/2⟩) := by
  have h := c6_zero_distance_skip ratSqrt (1/10)
    (mkDynBody ⟨2, 1, 3⟩ ⟨1/2, 1/2, 1/2⟩) (mkDynBody ⟨2, 1, 3⟩ ⟨1/2, 1/2, 1/2⟩)
    (by with_unfolding_all decide) rfl
  rw [h]
  with_unfolding_all decide

/-! ## C8 — overlapping equal pair, zero velocity -/

/-- `resolveDynamicCollision` consults its square root only at the squared
center distance, so two square roots agreeing there give equal results. -/
theorem resolveDynamicCollision_congr (sq1 sq2 : ℚ → ℚ) (skin : ℚ) (a b : Body)
    (h : sq1 ((a.boundingBox.getCenter.sub b.boundingBox.getCenter).lengthSq) =
         sq2 ((a.boundingBox.getCenter.sub b.boundingBox.getCenter).lengthSq)) :
    resolveDynamicCollision sq1 skin a b = resolveDynamicCollision sq2 skin a b := by
  simp only [resolveDynamicCollision, Vec3.length, Vec3.normalize, h]

/-- C8: one resolution pass on the overlapping equal pair (center distance
`0.5`, so `sq` is taken at `1/4`) pushes the bodies to `(-0.3,1,0)` and
`(0.8,1,0)` — displacements equal and opposite along the center normal, and
post-resolution center distance `1.1 ≥ 1 - skinWidth` — and leaves both
velocities exactly zero.  Zero closing velocity fails the strict
`velocityAlongNormal > 0` separating guard, so the pass runs the
velocity-response branch: the zero impulse leaves the velocities untouched
and, unlike the early-return path, both bounding boxes are recomputed. -/
theorem c8_equal_pair_resolution (sq : ℚ → ℚ) (h : sq (1/4) = 1/2) :
    (resolveDynamicCollision sq (1/10) pairBodyA pairBodyB).1.position = ⟨-3/10, 1, 0⟩ ∧
    (resolveDynamicCollision sq (1/10) pairBodyA pairBodyB).2.position = ⟨8/10, 1, 0⟩ ∧
    (resolveDynamicCollision sq (1/10) pairBodyA pairBodyB).1.position.sub pairBodyA.position =
      ((resolveDynamicCollision sq (1/10) pairBodyA pairBodyB).2.position.sub
        pairBodyB.position).smul (-1) ∧
    ((1 : ℚ) - 1/10) ^ 2 ≤
      ((resolveDynamicCollision sq (1/10) pairBodyA pairBodyB).1.boundingBox.getCenter.sub
        (resolveDynamicCollision sq (1/10) pairBodyA pairBodyB).2.boundingBox.getCenter).lengthSq ∧
    (resolveDynamicCollision sq (1/10) pairBodyA pairBodyB).1.velocity = Vec3.zero ∧
    (resolveDynamicCollision sq (1/10) pairBodyA pairBodyB).2.velocity = Vec3.zero ∧
    (resolveDynamicCollision sq (1/10) pairBodyA pairBodyB).1.boundingBox =
      boxFromCenterHalf
        (resolveDynamicCollision sq (1/10) pairBodyA pairBodyB).1.position
        pairBodyA.halfExtents ∧
    (resolveDynamicCollision sq (1/10) pairBodyA pairBodyB).2.boundingBox =
      boxFromCenterHalf
        (resolveDynamicCollision sq (1/10) pairBodyA pairBodyB).2.position
        pairBodyB.halfExtents := by
  have hls : (pairBodyA.boundingBox.getCenter.sub pairBodyB.boundingBox.getCenter).lengthSq
      = 1/4 := by with_unfolding_all decide
  have hcong : resolveDynamicCollision sq (1/10) pairBodyA pairBodyB =
      resolveDynamicCollision ratSqrt (1/10) pairBodyA pairBodyB := by
    refine resolveDynamicCollision_congr sq ratSqrt (1/10) pairBodyA pairBodyB ?_
    rw [hls, h]
    with_unfolding_all decide
  rw [hcong]
  with_unfolding_all decide

/-- Witness for `c8_equal_pair_resolution` at `sq := ratSqrt`. -/
theorem c8_equal_pair_resolution_witness :
    (resolveDynamicCollision ratSqrt (1/10) pairBodyA pairBodyB).1.position = ⟨-3/10, 1, 0⟩ ∧
    (resolveDynamicCollision ratSqrt (1/10) pairBodyA pairBodyB).2.position = ⟨8/10, 1, 0⟩ ∧
    (resolveDynamicCollision ratSqrt (1/10) pairBodyA pairBodyB).1.velocity = Vec3.zero ∧
    (resolveDynamicCollision ratSqrt (1/10) pairBodyA pairBodyB).2.velocity = Vec3.zero := by
  have h := c8_equal_pair_resolution ratSqrt (by with_unfolding_all decide)
  exact ⟨h.1, h.2.1, h.2.2.2.2.1, h.2.2.2.2.2.1⟩

/-! ## Shared algebra for `resolveCollision` (C2, C7) -/

theorem Vec3.dot_smul (a b : Vec3) (s : ℚ) : a.dot (b.smul s) = s * (a.dot b) := by
  simp only [Vec3.dot, Vec3.smul]; ring

theorem Vec3.smul_smul (a : Vec3) (s t : ℚ) : (a.smul s).smul t = a.smul (s * t) := by
  ext <;> simp [Vec3.smul] <;> ring

theorem Vec3.smul_one (a : Vec3) : a.smul 1 = a := by
  ext <;> simp [Vec3.smul]

theorem Vec3.smul_zero (a : Vec3) : a.smul 0 = Vec3.zero := by
  ext <;> simp [Vec3.smul, Vec3.zero]

theorem getCenter_boxFromCenterHalf (c h : Vec3) : (boxFromCenterHalf c h).getCenter = c := by
  ext <;> simp [boxFromCenterHalf, Box3.getCenter, Vec3.add, Vec3.sub, Vec3.smul] <;> ring

theorem getSize_boxFromCenterHalf (c h : Vec3) : (boxFromCenterHalf c h).getSize = h.smul 2 := by
  ext <;> simp [boxFromCenterHalf, Box3.getSize, Vec3.add, Vec3.sub, Vec3.smul] <;> ring

theorem msign_cases (q : ℚ) : (msign q = 1 ∧ 0 < q) ∨ (msign q = -1 ∧ q < 0) ∨
    (msign q = 0 ∧ q = 0) := by
  unfold msign
  rcases lt_trichotomy 0 q with h | h | h
  · left; simp [h]
  · right; right; simp [h.symm]
  · right; left
    simp [not_lt.mpr (le_of_lt h), h]

/-- The branch structure of the minimum-overlap search: which axis wins,
its overlap value, and the strictness of the Y/Z takeovers. -/
theorem minOverlapAxis_cases (bA bB : Box3) :
    (minOverlapAxis bA bB = (|axisOverlap 0 bA bB|, 0) ∧
      |axisOverlap 0 bA bB| ≤ |axisOverlap 1 bA bB| ∧
      |axisOverlap 0 bA bB| ≤ |axisOverlap 2 bA bB|) ∨
    (minOverlapAxis bA bB = (|axisOverlap 1 bA bB|, 1) ∧
      |axisOverlap 1 bA bB| < |axisOverlap 0 bA bB| ∧
      |axisOverlap 1 bA bB| ≤ |axisOverlap 2 bA bB|) ∨
    (minOverlapAxis bA bB = (|axisOverlap 2 bA bB|, 2) ∧
      |axisOverlap 2 bA bB| < |axisOverlap 0 bA bB| ∧
      |axisOverlap 2 bA bB| < |axisOverlap 1 bA bB|) := by
  by_cases h1 : |axisOverlap 1 bA bB| < |axisOverlap 0 bA bB|
  · by_cases h2 : |axisOverlap 2 bA bB| < |axisOverlap 1 bA bB|
    · right; right
      refine ⟨?_, lt_trans h2 h1, h2⟩
      simp [minOverlapAxis, if_pos h1, if_pos h2]
    · right; left
      refine ⟨?_, h1, not_lt.mp h2⟩
      simp [minOverlapAxis, if_pos h1, if_neg h2]
  · by_cases h2 : |axisOverlap 2 bA bB| < |axisOverlap 0 bA bB|
    · right; right
      refine ⟨?_, h2, lt_of_lt_of_le h2 (not_lt.mp h1)⟩
      simp [minOverlapAxis, if_neg h1, if_pos h2]
    · left
      refine ⟨?_, not_lt.mp h1, not_lt.mp h2⟩
      simp [minOverlapAxis, if_neg h1, if_neg h2]

theorem unitAxis_lengthSq (i : Nat) : (unitAxis i).lengthSq = 1 := by
  unfold unitAxis
  split_ifs <;> simp [Vec3.lengthSq, Vec3.dot]

theorem Vec3.lengthSq_smul (a : Vec3) (s : ℚ) : (a.smul s).lengthSq = s ^ 2 * a.lengthSq := by
  simp only [Vec3.lengthSq, Vec3.dot, Vec3.smul]; ring

/-- A nonzero `separationAxis` is a unit vector. -/
theorem sepAxis_lengthSq (bA bB : Box3) (h : sepAxis bA bB ≠ Vec3.zero) :
    (sepAxis bA bB).lengthSq = 1 := by
  simp only [sepAxis] at h ⊢
  rcases msign_cases (if (minOverlapAxis bA bB).2 = 0 then (bA.getCenter.sub bB.getCenter).x
      else if (minOverlapAxis bA bB).2 = 1 then (bA.getCenter.sub bB.getCenter).y
      else (bA.getCenter.sub bB.getCenter).z) with ⟨hs, _⟩ | ⟨hs, _⟩ | ⟨hs, _⟩
  · rw [hs, Vec3.lengthSq_smul, unitAxis_lengthSq]; norm_num
  · rw [hs, Vec3.lengthSq_smul, unitAxis_lengthSq]; norm_num
  · exfalso
    exact h (by rw [hs]; exact Vec3.smul_zero _)

/-- For axis indices past `2` the overlap formula falls into the Z branch. -/
theorem axisOverlap_ge_two (j : Nat) (bA bB : Box3) :
    axisOverlap (j + 2) bA bB = axisOverlap 2 bA bB := by
  unfold axisOverlap
  rw [if_neg (by omega), if_neg (by omega)]
  norm_num

/-- The chosen overlap value is `|axisOverlap|` of the chosen axis, it is
minimal among the three axes, and Y/Z are chosen only on strict
improvement. -/
theorem minOverlapAxis_min (bA bB : Box3) :
    (minOverlapAxis bA bB).1 = |axisOverlap (minOverlapAxis bA bB).2 bA bB| ∧
    (∀ i : Nat, (minOverlapAxis bA bB).1 ≤ |axisOverlap i bA bB|) ∧
    ((minOverlapAxis bA bB).2 = 1 →
      |axisOverlap 1 bA bB| < |axisOverlap 0 bA bB|) ∧
    ((minOverlapAxis bA bB).2 = 2 →
      |axisOverlap 2 bA bB| < |axisOverlap 0 bA bB| ∧
      |axisOverlap 2 bA bB| < |axisOverlap 1 bA bB|) := by
  rcases minOverlapAxis_cases bA bB with
    ⟨heq, ha, hb⟩ | ⟨heq, ha, hb⟩ | ⟨heq, ha, hb⟩
  · rw [heq]
    refine ⟨rfl, fun i => ?_, fun hdim => absurd hdim (by simp),
      fun hdim => absurd hdim (by simp)⟩
    match i with
    | 0 => exact le_refl _
    | 1 => exact ha
    | (j + 2) => rw [axisOverlap_ge_two]; exact hb
  · rw [heq]
    refine ⟨rfl, fun i => ?_, fun _ => ha,
      fun hdim => absurd hdim (by simp)⟩
    match i with
    | 0 => exact le_of_lt ha
    | 1 => exact le_refl _
    | (j + 2) => rw [axisOverlap_ge_two]; exact hb
  · rw [heq]
    refine ⟨rfl, fun i => ?_, fun hdim => absurd hdim (by simp),
      fun _ => ⟨ha, hb⟩⟩
    match i with
    | 0 => exact le_of_lt ha
    | 1 => exact le_of_lt hb
    | (j + 2) => rw [axisOverlap_ge_two]; exact le_refl _

/-- Full evaluation of `resolveCollision` when the separation axis is a
nonzero (hence unit) vector: writing `u` for the signed unit axis and
`d = minOverlap + skinWidth`, the body is pushed by `u * d`, its box is
recomputed there, and the velocity branch — whose condition and response
both use the axis *scaled by `d`* — adds `-(v·u)·friction·d²` along `u`. -/
theorem resolveCollision_eval (sq : ℚ → ℚ) (skin : ℚ) (b : Body) (o : Obstacle)
    (hsq1 : sq 1 = 1) (hax : sepAxis b.boundingBox o.boundingBox ≠ Vec3.zero) :
    (resolveCollision sq skin b o).position =
      b.position.add ((sepAxis b.boundingBox o.boundingBox).smul
        ((minOverlapAxis b.boundingBox o.boundingBox).1 + skin)) ∧
    (resolveCollision sq skin b o).boundingBox =
      boxFromCenterHalf
        (b.position.add ((sepAxis b.boundingBox o.boundingBox).smul
          ((minOverlapAxis b.boundingBox o.boundingBox).1 + skin)))
        b.halfExtents ∧
    (((minOverlapAxis b.boundingBox o.boundingBox).1 + skin) *
        (b.velocity.dot (sepAxis b.boundingBox o.boundingBox)) < 0 →
      (resolveCollision sq skin b o).velocity =
        b.velocity.add ((sepAxis b.boundingBox o.boundingBox).smul
          (-(b.velocity.dot (sepAxis b.boundingBox o.boundingBox)) * b.friction *
            ((minOverlapAxis b.boundingBox o.boundingBox).1 + skin) ^ 2))) ∧
    (0 ≤ ((minOverlapAxis b.boundingBox o.boundingBox).1 + skin) *
        (b.velocity.dot (sepAxis b.boundingBox o.boundingBox)) →
      (resolveCollision sq skin b o).velocity = b.velocity) := by
  have hulen : (sepAxis b.boundingBox o.boundingBox).length sq = 1 := by
    rw [Vec3.length, sepAxis_lengthSq _ _ hax, hsq1]
  refine ⟨?_, ?_, fun hneg => ?_, fun hpos => ?_⟩
  · simp only [resolveCollision, hulen, mul_one]
  · simp only [resolveCollision, hulen, mul_one]
  · simp only [resolveCollision, hulen, mul_one, Vec3.dot_smul, Vec3.smul_smul]
    rw [if_pos hneg]
    congr 1
    congr 1
    ring
  · simp only [resolveCollision, hulen, mul_one, Vec3.dot_smul, Vec3.smul_smul]
    rw [if_neg (not_lt.mpr hpos)]

/-! ## C2 — static resolution: push and velocity response -/

/-- C2, counterexample: the push conjunct holds, but the code's velocity
response leaves `(0.928, 0, 0)` (it adds `-(v·axis₂)·friction` along the
*scaled* axis `axis₂`), not the claimed cancel-and-redirect `(-0.8, 0, 0)`. -/
theorem c2_counterexample : ¬ staticResolutionClaimed ratSqrt (1/10) pushBody pushObstacle := by
  intro h
  have hv := h.2 (by with_unfolding_all decide)
  revert hv
  with_unfolding_all decide

/-- C2, amended: the push is as claimed — along the axis of smallest
absolute overlap (Y and Z win only on strict improvement), signed by the
separation component, by exactly `minOverlap + skinWidth` (`minOverlap` is
already an absolute value) — but the velocity response is not: because
`separationAxis.multiplyScalar(separationDistance)` mutates the axis before
the dot product, a velocity with `v·u < 0` receives
`-(v·u)·friction·d²` along the unit axis `u` (`d = minOverlap+skinWidth`),
which neither cancels the component nor adds `friction·|v·u|`. -/
theorem c2_static_resolution (sq : ℚ → ℚ) (skin : ℚ) (b : Body) (o : Obstacle)
    (hsq1 : sq 1 = 1) (hskin : 0 < skin)
    (hax : sepAxis b.boundingBox o.boundingBox ≠ Vec3.zero) :
    (resolveCollision sq skin b o).position =
      b.position.add ((sepAxis b.boundingBox o.boundingBox).smul
        ((minOverlapAxis b.boundingBox o.boundingBox).1 + skin)) ∧
    (minOverlapAxis b.boundingBox o.boundingBox).1 =
      |axisOverlap (minOverlapAxis b.boundingBox o.boundingBox).2
        b.boundingBox o.boundingBox| ∧
    (∀ i : Nat, (minOverlapAxis b.boundingBox o.boundingBox).1 ≤
      |axisOverlap i b.boundingBox o.boundingBox|) ∧
    ((minOverlapAxis b.boundingBox o.boundingBox).2 = 1 →
      |axisOverlap 1 b.boundingBox o.boundingBox| <
        |axisOverlap 0 b.boundingBox o.boundingBox|) ∧
    ((minOverlapAxis b.boundingBox o.boundingBox).2 = 2 →
      |axisOverlap 2 b.boundingBox o.boundingBox| <
        |axisOverlap 0 b.boundingBox o.boundingBox| ∧
      |axisOverlap 2 b.boundingBox o.boundingBox| <
        |axisOverlap 1 b.boundingBox o.boundingBox|) ∧
    (b.velocity.dot (sepAxis b.boundingBox o.boundingBox) < 0 →
      (resolveCollision sq skin b o).velocity =
        b.velocity.add ((sepAxis b.boundingBox o.boundingBox).smul
          (-(b.velocity.dot (sepAxis b.boundingBox o.boundingBox)) * b.friction *
            ((minOverlapAxis b.boundingBox o.boundingBox).1 + skin) ^ 2))) ∧
    (0 ≤ b.velocity.dot (sepAxis b.boundingBox o.boundingBox) →
      (resolveCollision sq skin b o).velocity = b.velocity) := by
  obtain ⟨hpos, _, hvneg, hvpos⟩ := resolveCollision_eval sq skin b o hsq1 hax
  have hmabs := minOverlapAxis_min b.boundingBox o.boundingBox
  have hd : 0 < (minOverlapAxis b.boundingBox o.boundingBox).1 + skin := by
    have h0 : 0 ≤ (minOverlapAxis b.boundingBox o.boundingBox).1 := by
      rw [hmabs.1]; exact abs_nonneg _
    linarith
  refine ⟨hpos, hmabs.1, hmabs.2.1, hmabs.2.2.1, hmabs.2.2.2, fun hneg => ?_, fun hge => ?_⟩
  · exact hvneg (mul_neg_of_pos_of_neg hd hneg)
  · exact hvpos (mul_nonneg (le_of_lt hd) hge)

/-- Witness for `c2_static_resolution` at the concrete push scenario. -/
theorem c2_static_resolution_witness :
    (resolveCollision ratSqrt (1/10) pushBody pushObstacle).position = ⟨3/10, 1, 0⟩ ∧
    (resolveCollision ratSqrt (1/10) pushBody pushObstacle).velocity = ⟨116/125, 0, 0⟩ := by
  have h := c2_static_resolution ratSqrt (1/10) pushBody pushObstacle
    (by with_unfolding_all decide) (by with_unfolding_all decide)
    (by with_unfolding_all decide)
  constructor
  · rw [h.1]; with_unfolding_all decide
  · rw [h.2.2.2.2.2.1 (by with_unfolding_all decide)]; with_unfolding_all decide

/-! ## C7 — overlap on the resolved axis after a static resolution -/

theorem abs_add_msign (c d : ℚ) (hd : 0 ≤ d) (hne : msign c ≠ 0) :
    |c + msign c * d| = |c| + d := by
  rcases msign_cases c with ⟨hs, hpos⟩ | ⟨hs, hneg⟩ | ⟨hs, _⟩
  · rw [hs, one_mul, abs_of_pos hpos, abs_of_pos (by linarith)]
  · rw [hs, abs_of_neg hneg, abs_of_neg (by linarith)]
    ring
  · exact absurd hs hne

/-- A passed `checkCollision` unpacks to the six interval inequalities. -/
theorem checkCollision_facts (a b : Box3) (h : checkCollision a b = true) :
    a.lo.x ≤ b.hi.x ∧ b.lo.x ≤ a.hi.x ∧ a.lo.y ≤ b.hi.y ∧ b.lo.y ≤ a.hi.y ∧
    a.lo.z ≤ b.hi.z ∧ b.lo.z ≤ a.hi.z := by
  simp only [checkCollision, Box3.intersectsBox, Bool.not_eq_true', Bool.or_eq_false_iff,
    decide_eq_false_iff_not, not_lt] at h
  exact ⟨h.1.1.1.1.1, h.1.1.1.1.2, h.1.1.1.2, h.1.1.2, h.1.2, h.2⟩

theorem axisOverlap_zero (bA bB : Box3) : axisOverlap 0 bA bB =
    (bA.getSize.x + bB.getSize.x) / 2 - |(bA.getCenter.sub bB.getCenter).x| := by
  norm_num [axisOverlap]

theorem axisOverlap_one (bA bB : Box3) : axisOverlap 1 bA bB =
    (bA.getSize.y + bB.getSize.y) / 2 - |(bA.getCenter.sub bB.getCenter).y| := by
  norm_num [axisOverlap]

theorem axisOverlap_two (bA bB : Box3) : axisOverlap 2 bA bB =
    (bA.getSize.z + bB.getSize.z) / 2 - |(bA.getCenter.sub bB.getCenter).z| := by
  norm_num [axisOverlap]

theorem unitAxis_zero : unitAxis 0 = ⟨1, 0, 0⟩ := by norm_num [unitAxis]

theorem unitAxis_one : unitAxis 1 = ⟨0, 1, 0⟩ := by norm_num [unitAxis]

theorem unitAxis_two : unitAxis 2 = ⟨0, 0, 1⟩ := by norm_num [unitAxis]

/-- Intersecting boxes have non-negative overlap on every axis. -/
theorem axisOverlap_nonneg (i : Nat) (a b : Box3) (h : checkCollision a b = true) :
    0 ≤ axisOverlap i a b := by
  obtain ⟨h1, h2, h3, h4, h5, h6⟩ := checkCollision_facts a b h
  unfold axisOverlap
  split_ifs <;>
    (simp only [Box3.getCenter, Box3.getSize, Vec3.sub, Vec3.add, Vec3.smul]
     rw [sub_nonneg, abs_le]
     constructor <;> linarith)

/-- C7, counterexample: for the flush pair the chosen axis is X with zero
separation component; the push is the zero vector and the recomputed
overlap on the chosen axis stays `0.2 > skinWidth = 0.1`. -/
theorem c7_counterexample : ¬ penetrationBoundClaimed ratSqrt (1/10) flushBody flushObstacle := by
  intro h
  have hb := h (by with_unfolding_all decide)
  revert hb
  with_unfolding_all decide

/-- C7, amended: *when the separation component on the chosen axis is
nonzero* (equivalently, the separation axis is not zeroed by `Math.sign`),
one resolution pass leaves the recomputed overlap on the chosen axis at
exactly `-skinWidth`, hence at most the skin width, and never larger than
the overlap it started from; when that component is zero the push is the
zero vector and the overlap is unchanged (the counterexample), which still
never increases it. -/
theorem c7_overlap_after_resolution (sq : ℚ → ℚ) (skin : ℚ) (b : Body) (o : Obstacle)
    (hsq1 : sq 1 = 1) (hskin : 0 ≤ skin)
    (hbox : b.boundingBox = boxFromCenterHalf b.position b.halfExtents)
    (hint : checkCollision b.boundingBox o.boundingBox = true)
    (hax : sepAxis b.boundingBox o.boundingBox ≠ Vec3.zero) :
    axisOverlap (minOverlapAxis b.boundingBox o.boundingBox).2
      (resolveCollision sq skin b o).boundingBox o.boundingBox = -skin ∧
    axisOverlap (minOverlapAxis b.boundingBox o.boundingBox).2
      (resolveCollision sq skin b o).boundingBox o.boundingBox ≤ skin ∧
    axisOverlap (minOverlapAxis b.boundingBox o.boundingBox).2
      (resolveCollision sq skin b o).boundingBox o.boundingBox ≤
      axisOverlap (minOverlapAxis b.boundingBox o.boundingBox).2
        b.boundingBox o.boundingBox := by
  obtain ⟨_, hboxnew, _, _⟩ := resolveCollision_eval sq skin b o hsq1 hax
  have hm := (minOverlapAxis_min b.boundingBox o.boundingBox).1
  have hd0 : 0 ≤ (minOverlapAxis b.boundingBox o.boundingBox).1 + skin := by
    have : 0 ≤ (minOverlapAxis b.boundingBox o.boundingBox).1 := by
      rw [hm]; exact abs_nonneg _
    linarith
  have hmain : axisOverlap (minOverlapAxis b.boundingBox o.boundingBox).2
      (resolveCollision sq skin b o).boundingBox o.boundingBox = -skin := by
    have hsize : b.boundingBox.getSize = b.halfExtents.smul 2 := by
      rw [hbox, getSize_boxFromCenterHalf]
    rcases minOverlapAxis_cases b.boundingBox o.boundingBox with
      ⟨heq, _, _⟩ | ⟨heq, _, _⟩ | ⟨heq, _, _⟩
    · have hdim : (minOverlapAxis b.boundingBox o.boundingBox).2 = 0 := by rw [heq]
      have husep : sepAxis b.boundingBox o.boundingBox =
          (unitAxis 0).smul
            (msign ((b.boundingBox.getCenter.sub o.boundingBox.getCenter).x)) := by
        simp [sepAxis, hdim]
      have hne : msign ((b.boundingBox.getCenter.sub o.boundingBox.getCenter).x) ≠ 0 :=
        fun h0 => hax (by rw [husep, h0]; exact Vec3.smul_zero _)
      have hnn := axisOverlap_nonneg 0 b.boundingBox o.boundingBox hint
      have hmv : (minOverlapAxis b.boundingBox o.boundingBox).1 =
          axisOverlap 0 b.boundingBox o.boundingBox := by
        rw [hm, hdim, abs_of_nonneg hnn]
      have hcx : (b.boundingBox.getCenter.sub o.boundingBox.getCenter).x =
          b.position.x - o.boundingBox.getCenter.x := by
        rw [hbox, getCenter_boxFromCenterHalf]
        rfl
      have hcomp : ((b.position.add ((sepAxis b.boundingBox o.boundingBox).smul
            ((minOverlapAxis b.boundingBox o.boundingBox).1 + skin))).sub
              o.boundingBox.getCenter).x =
          (b.boundingBox.getCenter.sub o.boundingBox.getCenter).x +
            msign ((b.boundingBox.getCenter.sub o.boundingBox.getCenter).x) *
              ((minOverlapAxis b.boundingBox o.boundingBox).1 + skin) := by
        rw [husep, hcx, unitAxis_zero]
        simp only [Vec3.add, Vec3.sub, Vec3.smul]
        ring
      have hov := axisOverlap_zero b.boundingBox o.boundingBox
      rw [hsize] at hov
      rw [hboxnew, hdim, axisOverlap_zero, getCenter_boxFromCenterHalf,
        getSize_boxFromCenterHalf, hcomp, abs_add_msign _ _ hd0 hne]
      linarith [hmv, hov]
    · have hdim : (minOverlapAxis b.boundingBox o.boundingBox).2 = 1 := by rw [heq]
      have husep : sepAxis b.boundingBox o.boundingBox =
          (unitAxis 1).smul
            (msign ((b.boundingBox.getCenter.sub o.boundingBox.getCenter).y)) := by
        simp [sepAxis, hdim]
      have hne : msign ((b.boundingBox.getCenter.sub o.boundingBox.getCenter).y) ≠ 0 :=
        fun h0 => hax (by rw [husep, h0]; exact Vec3.smul_zero _)
      have hnn := axisOverlap_nonneg 1 b.boundingBox o.boundingBox hint
      have hmv : (minOverlapAxis b.boundingBox o.boundingBox).1 =
          axisOverlap 1 b.boundingBox o.boundingBox := by
        rw [hm, hdim, abs_of_nonneg hnn]
      have hcy : (b.boundingBox.getCenter.sub o.boundingBox.getCenter).y =
          b.position.y - o.boundingBox.getCenter.y := by
        rw [hbox, getCenter_boxFromCenterHalf]
        rfl
      have hcomp : ((b.position.add ((sepAxis b.boundingBox o.boundingBox).smul
            ((minOverlapAxis b.boundingBox o.boundingBox).1 + skin))).sub
              o.boundingBox.getCenter).y =
          (b.boundingBox.getCenter.sub o.boundingBox.getCenter).y +
            msign ((b.boundingBox.getCenter.sub o.boundingBox.getCenter).y) *
              ((minOverlapAxis b.boundingBox o.boundingBox).1 + skin) := by
        rw [husep, hcy, unitAxis_one]
        simp only [Vec3.add, Vec3.sub, Vec3.smul]
        ring
      have hov := axisOverlap_one b.boundingBox o.boundingBox
      rw [hsize] at hov
      rw [hboxnew, hdim, axisOverlap_one, getCenter_boxFromCenterHalf,
        getSize_boxFromCenterHalf, hcomp, abs_add_msign _ _ hd0 hne]
      linarith [hmv, hov]
    · have hdim : (minOverlapAxis b.boundingBox o.boundingBox).2 = 2 := by rw [heq]
      have husep : sepAxis b.boundingBox o.boundingBox =
          (unitAxis 2).smul
            (msign ((b.boundingBox.getCenter.sub o.boundingBox.getCenter).z)) := by
        simp [sepAxis, hdim]
      have hne : msign ((b.boundingBox.getCenter.sub o.boundingBox.getCenter).z) ≠ 0 :=
        fun h0 => hax (by rw [husep, h0]; exact Vec3.smul_zero _)
      have hnn := axisOverlap_nonneg 2 b.boundingBox o.boundingBox hint
      have hmv : (minOverlapAxis b.boundingBox o.boundingBox).1 =
          axisOverlap 2 b.boundingBox o.boundingBox := by
        rw [hm, hdim, abs_of_nonneg hnn]
      have hcz : (b.boundingBox.getCenter.sub o.boundingBox.getCenter).z =
          b.position.z - o.boundingBox.getCenter.z := by
        rw [hbox, getCenter_boxFromCenterHalf]
        rfl
      have hcomp : ((b.position.add ((sepAxis b.boundingBox o.boundingBox).smul
            ((minOverlapAxis b.boundingBox o.boundingBox).1 + skin))).sub
              o.boundingBox.getCenter).z =
          (b.boundingBox.getCenter.sub o.boundingBox.getCenter).z +
            msign ((b.boundingBox.getCenter.sub o.boundingBox.getCenter).z) *
              ((minOverlapAxis b.boundingBox o.boundingBox).1 + skin) := by
        rw [husep, hcz, unitAxis_two]
        simp only [Vec3.add, Vec3.sub, Vec3.smul]
        ring
      have hov := axisOverlap_two b.boundingBox o.boundingBox
      rw [hsize] at hov
      rw [hboxnew, hdim, axisOverlap_two, getCenter_boxFromCenterHalf,
        getSize_boxFromCenterHalf, hcomp, abs_add_msign _ _ hd0 hne]
      linarith [hmv, hov]
  have hold : 0 ≤ axisOverlap (minOverlapAxis b.boundingBox o.boundingBox).2
      b.boundingBox o.boundingBox :=
    axisOverlap_nonneg _ b.boundingBox o.boundingBox hint
  exact ⟨hmain, by rw [hmain]; linarith, by rw [hmain]; linarith⟩

/-- Witness for `c7_overlap_after_resolution` at the push scenario of C2. -/
theorem c7_overlap_after_resolution_witness :
    axisOverlap (minOverlapAxis pushBody.boundingBox pushObstacle.boundingBox).2
      (resolveCollision ratSqrt (1/10) pushBody pushObstacle).boundingBox
      pushObstacle.boundingBox = -(1/10) := by
  have h := c7_overlap_after_resolution ratSqrt (1/10) pushBody pushObstacle
    (by with_unfolding_all decide) (by with_unfolding_all decide) rfl
    (by with_unfolding_all decide) (by with_unfolding_all decide)
  exact h.1

/-! ## Trace classification (C3) -/

theorem integrateAll_events (w : World) (dt : ℚ) :
    ∀ e ∈ (integrateAll w dt).2, ∃ i, e = Event.integrated i := by
  intro e he
  simp only [integrateAll, List.mem_filterMap] at he
  obtain ⟨p, _, hp⟩ := he
  by_cases hs : p.2.isStatic
  · rw [if_pos hs] at hp; cases hp
  · rw [if_neg hs] at hp
    exact ⟨p.1, (Option.some_inj.mp hp).symm⟩

theorem staticPassAux_events (sq : ℚ → ℚ) (skin : ℚ) (i : Nat)
    (os : List (Nat × Obstacle)) (b : Body) :
    ∀ e ∈ (staticPassAux sq skin i os b).2, ∃ j, e = Event.staticResolved i j := by
  induction os generalizing b with
  | nil => intro e he; simp [staticPassAux] at he
  | cons o rest ih =>
    intro e he
    simp only [staticPassAux] at he
    split at he
    · simp only [List.mem_cons] at he
      rcases he with rfl | he
      · exact ⟨o.1, rfl⟩
      · exact ih _ e he
    · exact ih _ e he

theorem dynPassAux_events (sq : ℚ → ℚ) (skin : ℚ) (i : Nat) (ks : List Nat)
    (bodies : List Body) :
    ∀ e ∈ (dynPassAux sq skin i ks bodies).2, ∃ k, e = Event.dynResolved i k := by
  induction ks generalizing bodies with
  | nil => intro e he; simp [dynPassAux] at he
  | cons k rest ih =>
    intro e he
    simp only [dynPassAux] at he
    split at he
    · exact ih _ e he
    · split at he
      · split at he
        · exact ih _ e he
        · split at he
          · simp only [List.mem_cons] at he
            rcases he with rfl | he
            · exact ⟨k, rfl⟩
            · exact ih _ e he
          · exact ih _ e he
      · exact ih _ e he

theorem collisionPassAux_events (sq : ℚ → ℚ) (skin : ℚ) (obs : List Obstacle)
    (is : List Nat) (bodies : List Body) :
    ∀ e ∈ (collisionPassAux sq skin obs is bodies).2,
      ∃ i ∈ is, (∃ j, e = Event.staticResolved i j) ∨ ∃ k, e = Event.dynResolved i k := by
  induction is generalizing bodies with
  | nil => intro e he; simp [collisionPassAux] at he
  | cons i rest ih =>
    intro e he
    simp only [collisionPassAux] at he
    split at he
    · obtain ⟨i', hi', hcase⟩ := ih _ e he
      exact ⟨i', List.mem_cons_of_mem _ hi', hcase⟩
    · split at he
      · obtain ⟨i', hi', hcase⟩ := ih _ e he
        exact ⟨i', List.mem_cons_of_mem _ hi', hcase⟩
      · simp only [List.mem_append] at he
        rcases he with he | he | he
        · obtain ⟨j, rfl⟩ := staticPassAux_events sq skin i _ _ e he
          exact ⟨i, List.mem_cons_self _ _, Or.inl ⟨j, rfl⟩⟩
        · obtain ⟨k, rfl⟩ := dynPassAux_events sq skin i _ _ e he
          exact ⟨i, List.mem_cons_self _ _, Or.inr ⟨k, rfl⟩⟩
        · obtain ⟨i', hi', hcase⟩ := ih _ e he
          exact ⟨i', List.mem_cons_of_mem _ hi', hcase⟩

/-- Within one body's chunk the static events precede the dynamic ones;
with distinct outer indices that yields, for every body `i`, a split of the
collision-pass trace into a part free of `dynResolved i _` followed by a
part free of `staticResolved i _`. -/
theorem collisionPassAux_split (sq : ℚ → ℚ) (skin : ℚ) (obs : List Obstacle)
    (is : List Nat) (bodies : List Body) (hnd : is.Nodup) (i : Nat) :
    ∃ l1 l2, (collisionPassAux sq skin obs is bodies).2 = l1 ++ l2 ∧
      (∀ k, Event.dynResolved i k ∉ l1) ∧
      (∀ j, Event.staticResolved i j ∉ l2) := by
  induction is generalizing bodies with
  | nil =>
    refine ⟨[], [], by simp [collisionPassAux], by simp, by simp⟩
  | cons i' rest ih =>
    have hnd' : rest.Nodup := (List.nodup_cons.mp hnd).2
    have hni : i' ∉ rest := (List.nodup_cons.mp hnd).1
    by_cases hii : i = i'
    · subst hii
      have hrest : ∀ (bodies2 : List Body) (e : Event),
          e ∈ (collisionPassAux sq skin obs rest bodies2).2 →
          (∀ j, e ≠ Event.staticResolved i j) ∧ ∀ k, e ≠ Event.dynResolved i k := by
        intro bodies2 e he
        obtain ⟨i2, hi2, hcase⟩ := collisionPassAux_events sq skin obs rest bodies2 e he
        have hne : i2 ≠ i := fun h => hni (h ▸ hi2)
        rcases hcase with ⟨j, rfl⟩ | ⟨k, rfl⟩
        · exact ⟨fun j2 h => hne (by injection h), fun k2 h => by injection h⟩
        · exact ⟨fun j2 h => by injection h, fun k2 h => hne (by injection h)⟩
      show ∃ l1 l2, (collisionPassAux sq skin obs (i :: rest) bodies).2 = l1 ++ l2 ∧ _ ∧ _
      simp only [collisionPassAux]
      split
      · refine ⟨[], _, rfl, by simp, fun j hj => ?_⟩
        exact ((hrest _ _ hj).1 j) rfl
      · split
        · refine ⟨[], _, rfl, by simp, fun j hj => ?_⟩
          exact ((hrest _ _ hj).1 j) rfl
        · refine ⟨(staticPassAux sq skin i obs.enum _).2,
            (dynPassAux sq skin i (List.range _) _).2 ++
              (collisionPassAux sq skin obs rest _).2, rfl, ?_, ?_⟩
          · intro k hk
            obtain ⟨j, hj⟩ := staticPassAux_events sq skin i _ _ _ hk
            cases hj
          · intro j hj
            rcases List.mem_append.mp hj with hj | hj
            · obtain ⟨k, hk⟩ := dynPassAux_events sq skin i _ _ _ hj
              cases hk
            · exact ((hrest _ _ hj).1 j) rfl
    · -- i ≠ i': the head chunk contains no events of body i at all
      show ∃ l1 l2, (collisionPassAux sq skin obs (i' :: rest) bodies).2 = l1 ++ l2 ∧ _ ∧ _
      simp only [collisionPassAux]
      split
      · exact ih _ hnd'
      · split
        · exact ih _ hnd'
        · rename_i bi hbi hns
          obtain ⟨l1, l2, heq, hl1, hl2⟩ := ih
            (dynPassAux sq skin i'
              (List.range (bodies.set i' (staticPassAux sq skin i' obs.enum bi).1).length)
              (bodies.set i' (staticPassAux sq skin i' obs.enum bi).1)).1 hnd'
          refine ⟨(staticPassAux sq skin i' obs.enum bi).2 ++
              ((dynPassAux sq skin i'
                (List.range (bodies.set i' (staticPassAux sq skin i' obs.enum bi).1).length)
                (bodies.set i' (staticPassAux sq skin i' obs.enum bi).1)).2 ++ l1), l2,
            ?_, ?_, hl2⟩
          · show (staticPassAux sq skin i' obs.enum bi).2 ++
              ((dynPassAux sq skin i'
                (List.range (bodies.set i' (staticPassAux sq skin i' obs.enum bi).1).length)
                (bodies.set i' (staticPassAux sq skin i' obs.enum bi).1)).2 ++
               (collisionPassAux sq skin obs rest
                (dynPassAux sq skin i'
                  (List.range (bodies.set i' (staticPassAux sq skin i' obs.enum bi).1).length)
                  (bodies.set i' (staticPassAux sq skin i' obs.enum bi).1)).1).2) = _
            rw [heq]
            simp [List.append_assoc]
          · intro k hk
            rcases List.mem_append.mp hk with hk | hk
            · obtain ⟨j, hj⟩ := staticPassAux_events sq skin i' _ _ _ hk
              simp at hj
            · rcases List.mem_append.mp hk with hk | hk
              · obtain ⟨k2, hj⟩ := dynPassAux_events sq skin i' _ _ _ hk
                injection hj with h1 h2
                exact hii h1
              · exact hl1 k hk

theorem collectItem_events (j : Nat) (items : List Interactable) :
    ∀ e ∈ (collectItem j items).2, e = Event.itemCollected j := by
  intro e he
  unfold collectItem at he
  split at he
  · split at he
    · simp only [List.mem_singleton] at he
      exact he
    · simp at he
  · simp at he

theorem handleInteraction_events (i j : Nat) (ty : String) (items : List Interactable) :
    ∀ e ∈ (handleInteraction i j ty items).2, Event.isInteraction e = true := by
  intro e he
  unfold handleInteraction at he
  split_ifs at he
  · rw [collectItem_events j items e he]
    rfl
  · simp only [List.mem_singleton] at he
    rw [he]
    rfl
  · simp only [List.mem_singleton] at he
    rw [he]
    rfl

theorem checkInteractionsAux_events (sq : ℚ → ℚ) (i : Nat) (p : Vec3)
    (js : List Nat) (items : List Interactable) :
    ∀ e ∈ (checkInteractionsAux sq i p js items).2, Event.isInteraction e = true := by
  induction js generalizing items with
  | nil => intro e he; simp [checkInteractionsAux] at he
  | cons j rest ih =>
    intro e he
    simp only [checkInteractionsAux] at he
    split at he
    · exact ih _ e he
    · split at he
      · exact ih _ e he
      · split at he
        · simp only [List.mem_append] at he
          rcases he with he | he
          · exact handleInteraction_events i j _ _ e he
          · exact ih _ e he
        · exact ih _ e he

theorem interactionPassAux_events (sq : ℚ → ℚ) (bs : List (Nat × Body))
    (items : List Interactable) :
    ∀ e ∈ (interactionPassAux sq bs items).2, Event.isInteraction e = true := by
  induction bs generalizing items with
  | nil => intro e he; simp [interactionPassAux] at he
  | cons b rest ih =>
    intro e he
    simp only [interactionPassAux, List.mem_append] at he
    rcases he with he | he
    · exact checkInteractionsAux_events sq b.1 b.2.position _ _ e he
    · exact ih _ e he

/-! ## C3 — pipeline ordering -/

/-- C3, counterexample: the trace of one `update` on `orderWorld` is
`[integrated 0, integrated 1, dynResolved 0 1, staticResolved 1 0,
dynResolved 1 0]` — the static resolution of body 1 happens *after* the
dynamic resolution of body 0, because `handleCollisions` interleaves the
static and dynamic passes per body instead of running two global phases. -/
theorem c3_counterexample : ¬ staticBeforeDynClaimed (update ratSqrt orderWorld (1/60)).2 := by
  intro h
  unfold staticBeforeDynClaimed at h
  have htr : (update ratSqrt orderWorld (1/60)).2 =
      [Event.integrated 0, Event.integrated 1, Event.dynResolved 0 1,
       Event.staticResolved 1 0, Event.dynResolved 1 0] := by
    with_unfolding_all decide
  have h32 := h 3 2 1 0 0 1 (by rw [htr]; rfl) (by rw [htr]; rfl)
  omega

/-- C3, amended: the trace of one `update` splits into an integration
phase, then a collision phase, then an interaction phase (so all
integration precedes any collision work and interactions run last, as
claimed); but static-before-dynamic holds only *per body*: for each body
`i` the collision phase splits into a prefix with no `dynResolved i _` and
a suffix with no `staticResolved i _`.  Globally the claim fails, since a
later body's static resolution runs after an earlier body's dynamic pass
(see the counterexample). -/
theorem c3_pipeline_order (sq : ℚ → ℚ) (w : World) (dt : ℚ) :
    ∃ e1 e2 e3, (update sq w dt).2 = e1 ++ (e2 ++ e3) ∧
      (∀ e ∈ e1, Event.isIntegration e = true) ∧
      (∀ e ∈ e2, Event.isCollision e = true) ∧
      (∀ e ∈ e3, Event.isInteraction e = true) ∧
      (∀ i : Nat, ∃ l1 l2, e2 = l1 ++ l2 ∧
        (∀ k, Event.dynResolved i k ∉ l1) ∧
        (∀ j, Event.staticResolved i j ∉ l2)) := by
  refine ⟨(integrateAll w (if dt ≤ 1/30 then dt else 1/30)).2,
    (handleCollisions sq (integrateAll w (if dt ≤ 1/30 then dt else 1/30)).1).2,
    (updateInteractions sq
      (handleCollisions sq (integrateAll w (if dt ≤ 1/30 then dt else 1/30)).1).1).2,
    rfl, ?_, ?_, ?_, ?_⟩
  · intro e he
    obtain ⟨i, rfl⟩ := integrateAll_events w _ e he
    rfl
  · intro e he
    obtain ⟨i, _, hcase⟩ := collisionPassAux_events sq _ _ _ _ e he
    rcases hcase with ⟨j, rfl⟩ | ⟨k, rfl⟩ <;> rfl
  · intro e he
    exact interactionPassAux_events sq _ _ e he
  · intro i
    exact collisionPassAux_split sq _ _ _ _ (List.nodup_range _) i

/-! ## Interaction-pass lemmas (C4, C5) -/

/-- Handling interactable `j` neither touches entry `k ≠ j` nor emits an
item-collected event for `k`. -/
theorem handleInteraction_preserve (bi j k : Nat) (ty : String)
    (items : List Interactable) (hjk : j ≠ k) :
    ((handleInteraction bi j ty items).1)[k]? = items[k]? ∧
    (handleInteraction bi j ty items).2.count (Event.itemCollected k) = 0 := by
  unfold handleInteraction
  split_ifs with h1 h2
  · unfold collectItem
    split
    · split
      · refine ⟨List.getElem?_set_ne hjk, ?_⟩
        rw [List.count_eq_zero]
        simp only [List.mem_singleton, Event.itemCollected.injEq]
        exact fun h => hjk h.symm
      · exact ⟨rfl, rfl⟩
    · exact ⟨rfl, rfl⟩
  · refine ⟨rfl, ?_⟩
    rw [List.count_eq_zero]
    simp
  · refine ⟨rfl, ?_⟩
    rw [List.count_eq_zero]
    simp

/-- A collected entry survives a body's `checkInteractions` untouched and
triggers no further item-collected event for it. -/
theorem checkInteractionsAux_collected (sq : ℚ → ℚ) (bi : Nat) (p : Vec3)
    (js : List Nat) (items : List Interactable) (k : Nat) (it : Interactable)
    (hk : items[k]? = some it) (hc : it.collected = true) :
    ((checkInteractionsAux sq bi p js items).1)[k]? = some it ∧
    (checkInteractionsAux sq bi p js items).2.count (Event.itemCollected k) = 0 := by
  induction js generalizing items with
  | nil => exact ⟨hk, rfl⟩
  | cons j rest ih =>
    simp only [checkInteractionsAux]
    split
    · exact ih items hk
    · rename_i jt heq
      by_cases hjk : j = k
      · subst hjk
        rw [hk] at heq
        injection heq with h
        subst h
        rw [if_pos hc]
        exact ih items hk
      · split_ifs with hcol hdist
        · exact ih items hk
        · obtain ⟨hpres, hcnt⟩ := handleInteraction_preserve bi j k jt.itype items hjk
          have hk' : ((handleInteraction bi j jt.itype items).1)[k]? = some it := by
            rw [hpres]; exact hk
          obtain ⟨ih1, ih2⟩ := ih _ hk'
          refine ⟨ih1, ?_⟩
          show ((handleInteraction bi j jt.itype items).2 ++ _).count _ = 0
          rw [List.count_append, hcnt, ih2]
        · exact ih items hk

/-- An uncollected entry out of range of this body also survives its
`checkInteractions` untouched with no event. -/
theorem checkInteractionsAux_far (sq : ℚ → ℚ) (bi : Nat) (p : Vec3)
    (js : List Nat) (items : List Interactable) (k : Nat) (it : Interactable)
    (hk : items[k]? = some it)
    (hfar : ¬ Vec3.distanceTo sq p it.position < 2) :
    ((checkInteractionsAux sq bi p js items).1)[k]? = some it ∧
    (checkInteractionsAux sq bi p js items).2.count (Event.itemCollected k) = 0 := by
  induction js generalizing items with
  | nil => exact ⟨hk, rfl⟩
  | cons j rest ih =>
    simp only [checkInteractionsAux]
    split
    · exact ih items hk
    · rename_i jt heq
      by_cases hjk : j = k
      · subst hjk
        rw [hk] at heq
        injection heq with h
        subst h
        split_ifs <;> exact ih items hk
      · split_ifs with hcol hdist
        · exact ih items hk
        · obtain ⟨hpres, hcnt⟩ := handleInteraction_preserve bi j k jt.itype items hjk
          have hk' : ((handleInteraction bi j jt.itype items).1)[k]? = some it := by
            rw [hpres]; exact hk
          obtain ⟨ih1, ih2⟩ := ih _ hk'
          refine ⟨ih1, ?_⟩
          show ((handleInteraction bi j jt.itype items).2 ++ _).count _ = 0
          rw [List.count_append, hcnt, ih2]
        · exact ih items hk

/-- An uncollected item-type entry within range of this body gets collected
by its `checkInteractions`, with exactly one item-collected event. -/
theorem checkInteractionsAux_hit (sq : ℚ → ℚ) (bi : Nat) (p : Vec3)
    (js : List Nat) (items : List Interactable) (k : Nat) (it : Interactable)
    (hk : items[k]? = some it) (hty : it.itype = "item") (hun : it.collected = false)
    (hnear : Vec3.distanceTo sq p it.position < 2) (hmem : k ∈ js) :
    ((checkInteractionsAux sq bi p js items).1)[k]? =
      some { it with collected := true } ∧
    (checkInteractionsAux sq bi p js items).2.count (Event.itemCollected k) = 1 := by
  induction js generalizing items with
  | nil => cases hmem
  | cons j rest ih =>
    simp only [checkInteractionsAux]
    split
    · rename_i heq
      by_cases hjk : j = k
      · rw [hjk, hk] at heq; cases heq
      · have hmem' : k ∈ rest := by
          rcases List.mem_cons.mp hmem with h | h
          · exact absurd h.symm hjk
          · exact h
        exact ih items hk hmem'
    · rename_i jt heq
      by_cases hjk : j = k
      · have hjltmp := hjk
        subst hjltmp
        rw [hk] at heq
        injection heq with h
        subst h
        rw [if_neg (by rw [hun]; simp), if_pos hnear]
        have hlt : j < items.length := by
          by_contra hge
          rw [List.getElem?_eq_none (by omega)] at hk
          cases hk
        have hhandle : handleInteraction bi j it.itype items =
            (items.set j { it with collected := true }, [Event.itemCollected j]) := by
          rw [hty]
          simp only [handleInteraction, if_pos rfl]
          simp only [collectItem, hk]
          rw [if_pos hun, if_pos trivial, hty]
        rw [hhandle]
        have hk2 : (items.set j { it with collected := true })[j]? =
            some { it with collected := true } := by
          simp [List.getElem?_set_self, hlt]
        obtain ⟨hres, hcnt⟩ := checkInteractionsAux_collected sq bi p rest
          (items.set j { it with collected := true }) j _ hk2 rfl
        refine ⟨hres, ?_⟩
        show (([Event.itemCollected j] : List Event) ++ _).count _ = 1
        rw [List.count_append, hcnt]
        simp
      · have hmem' : k ∈ rest := by
          rcases List.mem_cons.mp hmem with h | h
          · exact absurd h.symm hjk
          · exact h
        split_ifs with hcol hdist
        · exact ih items hk hmem'
        · obtain ⟨hpres, hcnt⟩ := handleInteraction_preserve bi j k jt.itype items hjk
          have hk' : ((handleInteraction bi j jt.itype items).1)[k]? = some it := by
            rw [hpres]; exact hk
          obtain ⟨ih1, ih2⟩ := ih _ hk' hmem'
          refine ⟨ih1, ?_⟩
          show ((handleInteraction bi j jt.itype items).2 ++ _).count _ = 1
          rw [List.count_append, hcnt, ih2]
        · exact ih items hk hmem'

/-- Pass-level: a collected entry stays collected through the whole
interaction pass and fires no item-collected event. -/
theorem interactionPassAux_collected (sq : ℚ → ℚ) (bs : List (Nat × Body))
    (items : List Interactable) (k : Nat) (it : Interactable)
    (hk : items[k]? = some it) (hc : it.collected = true) :
    ((interactionPassAux sq bs items).1)[k]? = some it ∧
    (interactionPassAux sq bs items).2.count (Event.itemCollected k) = 0 := by
  induction bs generalizing items with
  | nil => exact ⟨hk, rfl⟩
  | cons b rest ih =>
    simp only [interactionPassAux]
    obtain ⟨h1, h2⟩ := checkInteractionsAux_collected sq b.1 b.2.position
      (List.range items.length) items k it hk hc
    obtain ⟨ih1, ih2⟩ := ih _ h1
    refine ⟨ih1, ?_⟩
    show ((checkInteractionsAux sq b.1 b.2.position _ items).2 ++ _).count _ = 0
    rw [List.count_append, h2, ih2]

/-- Pass-level: an uncollected item-type entry in range of some body in the
pass gets collected exactly once. -/
theorem interactionPassAux_hit (sq : ℚ → ℚ) (bs : List (Nat × Body))
    (items : List Interactable) (k : Nat) (it : Interactable)
    (hk : items[k]? = some it) (hty : it.itype = "item") (hun : it.collected = false)
    (hb : ∃ p ∈ bs, Vec3.distanceTo sq p.2.position it.position < 2) :
    (∃ it2, ((interactionPassAux sq bs items).1)[k]? = some it2 ∧
      it2.collected = true) ∧
    (interactionPassAux sq bs items).2.count (Event.itemCollected k) = 1 := by
  induction bs generalizing items with
  | nil =>
    obtain ⟨p, hp, _⟩ := hb
    cases hp
  | cons b rest ih =>
    simp only [interactionPassAux]
    by_cases hnear : Vec3.distanceTo sq b.2.position it.position < 2
    · have hmem : k ∈ List.range items.length := by
        rw [List.mem_range]
        by_contra hge
        rw [List.getElem?_eq_none (by omega)] at hk
        cases hk
      obtain ⟨h1, h2⟩ := checkInteractionsAux_hit sq b.1 b.2.position
        (List.range items.length) items k it hk hty hun hnear hmem
      obtain ⟨ih1, ih2⟩ := interactionPassAux_collected sq rest _ k _ h1 rfl
      refine ⟨⟨{ it with collected := true }, ih1, rfl⟩, ?_⟩
      show ((checkInteractionsAux sq b.1 b.2.position _ items).2 ++ _).count _ = 1
      rw [List.count_append, h2, ih2]
    · obtain ⟨h1, h2⟩ := checkInteractionsAux_far sq b.1 b.2.position
        (List.range items.length) items k it hk hnear
      have hb' : ∃ p ∈ rest, Vec3.distanceTo sq p.2.position it.position < 2 := by
        obtain ⟨p, hp, hd⟩ := hb
        rcases List.mem_cons.mp hp with rfl | hp'
        · exact absurd hd hnear
        · exact ⟨p, hp', hd⟩
      obtain ⟨ih1, ih2⟩ := ih _ h1 hb'
      refine ⟨ih1, ?_⟩
      show ((checkInteractionsAux sq b.1 b.2.position _ items).2 ++ _).count _ = 1
      rw [List.count_append, h2, ih2]

theorem mem_enumFrom_of_mem {α : Type} {a : α} {l : List α} (h : a ∈ l) :
    ∀ s : Nat, ∃ n, (n, a) ∈ l.enumFrom s := by
  induction l with
  | nil => cases h
  | cons x xs ih =>
    intro s
    rcases List.mem_cons.mp h with rfl | hx
    · exact ⟨s, by
        rw [show (a :: xs).enumFrom s = (s, a) :: xs.enumFrom (s + 1) from rfl]
        exact List.mem_cons_self _ _⟩
    · obtain ⟨n, hn⟩ := ih hx (s + 1)
      exact ⟨n, by
        rw [show (x :: xs).enumFrom s = (s, x) :: xs.enumFrom (s + 1) from rfl]
        exact List.mem_cons_of_mem _ hn⟩

theorem mem_enum_of_mem {α : Type} {a : α} {l : List α} (h : a ∈ l) :
    ∃ n, (n, a) ∈ l.enum := by
  obtain ⟨n, hn⟩ := mem_enumFrom_of_mem h 0
  exact ⟨n, hn⟩

theorem count_itemCollected_integrate (w : World) (dt : ℚ) (k : Nat) :
    (integrateAll w dt).2.count (Event.itemCollected k) = 0 := by
  rw [List.count_eq_zero]
  intro hmem
  obtain ⟨i, h⟩ := integrateAll_events w dt _ hmem
  cases h

theorem count_itemCollected_collision (sq : ℚ → ℚ) (w : World) (k : Nat) :
    (handleCollisions sq w).2.count (Event.itemCollected k) = 0 := by
  rw [List.count_eq_zero]
  intro hmem
  obtain ⟨i, _, hcase⟩ := collisionPassAux_events sq w.skinWidth w.obstacles
    (List.range w.bodies.length) w.bodies _ hmem
  rcases hcase with ⟨j, h⟩ | ⟨k2, h⟩ <;> cases h

/-- The integration and collision passes leave the interactable registry
untouched; the interaction pass of `update` therefore reads the original
interactables against the post-collision bodies. -/
theorem midWorld_interactables (sq : ℚ → ℚ) (w : World) (dt : ℚ) :
    (midWorld sq w dt).interactables = w.interactables := rfl

/-- Core of C4/C5: an uncollected item-type interactable within range (as
the code measures it) of *any* body present when the interaction pass runs
is collected by one `update`, with exactly one item-collected event. -/
theorem update_collects (sq : ℚ → ℚ) (w : World) (dt : ℚ) (k : Nat) (it : Interactable)
    (hk : w.interactables[k]? = some it) (hty : it.itype = "item")
    (hun : it.collected = false)
    (hb : ∃ b ∈ (midWorld sq w dt).bodies, Vec3.distanceTo sq b.position it.position < 2) :
    (∃ it2, ((update sq w dt).1.interactables)[k]? = some it2 ∧ it2.collected = true) ∧
    (update sq w dt).2.count (Event.itemCollected k) = 1 := by
  obtain ⟨b, hbmem, hbd⟩ := hb
  obtain ⟨n, hn⟩ := mem_enum_of_mem hbmem
  obtain ⟨hex, hcnt⟩ := interactionPassAux_hit sq ((midWorld sq w dt).bodies.enum)
    (midWorld sq w dt).interactables k it hk hty hun ⟨(n, b), hn, hbd⟩
  refine ⟨hex, ?_⟩
  have hdec : (update sq w dt).2 =
      (integrateAll w (if dt ≤ 1/30 then dt else 1/30)).2 ++
      ((handleCollisions sq (integrateAll w (if dt ≤ 1/30 then dt else 1/30)).1).2 ++
       (interactionPassAux sq ((midWorld sq w dt).bodies.enum)
         (midWorld sq w dt).interactables).2) := rfl
  rw [hdec, List.count_append, List.count_append, count_itemCollected_integrate,
    count_itemCollected_collision, hcnt]

/-- Companion helper: a collected entry survives one `update` untouched and
without any further item-collected event. -/
theorem update_keeps_collected (sq : ℚ → ℚ) (w : World) (dt : ℚ) (k : Nat)
    (it : Interactable) (hk : w.interactables[k]? = some it)
    (hc : it.collected = true) :
    ((update sq w dt).1.interactables)[k]? = some it ∧
    (update sq w dt).2.count (Event.itemCollected k) = 0 := by
  obtain ⟨hex, hcnt⟩ := interactionPassAux_collected sq ((midWorld sq w dt).bodies.enum)
    (midWorld sq w dt).interactables k it hk hc
  refine ⟨hex, ?_⟩
  have hdec : (update sq w dt).2 =
      (integrateAll w (if dt ≤ 1/30 then dt else 1/30)).2 ++
      ((handleCollisions sq (integrateAll w (if dt ≤ 1/30 then dt else 1/30)).1).2 ++
       (interactionPassAux sq ((midWorld sq w dt).bodies.enum)
         (midWorld sq w dt).interactables).2) := rfl
  rw [hdec, List.count_append, List.count_append, count_itemCollected_integrate,
    count_itemCollected_collision, hcnt]

/-! ## C4 — the interaction pass does not filter static bodies -/

/-- C4, counterexample: `updateInteractions` loops over *all* bodies with
no `isStatic` filter, so the lone static body of `staticWorld` collects the
item in one `update`. -/
theorem c4_counterexample : ¬ interactionStaticClaimed := by
  intro h
  have hmem : Event.itemCollected 0 ∈ (update ratSqrt staticWorld (1/60)).2 := by
    with_unfolding_all decide
  have hfalse := h ratSqrt staticWorld (1/60) (by with_unfolding_all decide) _ hmem
  simp [Event.isInteraction] at hfalse

/-- C4, amended: the interaction pass iterates over every body of the
registry, static bodies included — a static body within interaction range
of a not-yet-collected item-type interactable does collect it (exactly
once) during one `update`. -/
theorem c4_static_bodies_interact (sq : ℚ → ℚ) (w : World) (dt : ℚ) (k : Nat)
    (it : Interactable) (hk : w.interactables[k]? = some it)
    (hty : it.itype = "item") (hun : it.collected = false)
    (hb : ∃ b ∈ (midWorld sq w dt).bodies, b.isStatic = true ∧
      Vec3.distanceTo sq b.position it.position < 2) :
    (∃ it2, ((update sq w dt).1.interactables)[k]? = some it2 ∧ it2.collected = true) ∧
    (update sq w dt).2.count (Event.itemCollected k) = 1 := by
  obtain ⟨b, hbmem, _, hbd⟩ := hb
  exact update_collects sq w dt k it hk hty hun ⟨b, hbmem, hbd⟩

/-- Witness for `c4_static_bodies_interact` at `staticWorld`. -/
theorem c4_static_bodies_interact_witness :
    (∃ it2, ((update ratSqrt staticWorld (1/60)).1.interactables)[0]? = some it2 ∧
      it2.collected = true) ∧
    (update ratSqrt staticWorld (1/60)).2.count (Event.itemCollected 0) = 1 := by
  exact c4_static_bodies_interact ratSqrt staticWorld (1/60) 0 ⟨⟨0, 1, 0⟩, "item", false⟩
    (by with_unfolding_all decide) rfl rfl
    ⟨(midWorld ratSqrt staticWorld (1/60)).bodies.head (by with_unfolding_all decide),
      by with_unfolding_all decide, by with_unfolding_all decide,
      by with_unfolding_all decide⟩

/-! ## C5 — collection is terminal and fires exactly once -/

/-- C5: (1) once `collected` is true it stays true through any further
`update`, which fires no further item-collected event for it; (2) the
collection path itself (`collectItem`) is a no-op on an already collected
item; (3) an uncollected item-type interactable within the 2.0 interaction
range of some body when the interaction pass runs is collected by a single
`update` with the item-collected callback fired exactly once, however many
bodies are in range. -/
theorem c5_collection_terminal (sq : ℚ → ℚ) (w : World) (dt : ℚ) (k : Nat) :
    (∀ it, w.interactables[k]? = some it → it.collected = true →
      ((update sq w dt).1.interactables)[k]? = some it ∧
      (update sq w dt).2.count (Event.itemCollected k) = 0) ∧
    (∀ (items : List Interactable) it, items[k]? = some it → it.collected = true →
      collectItem k items = (items, [])) ∧
    (∀ it, w.interactables[k]? = some it → it.itype = "item" → it.collected = false →
      (∃ b ∈ (midWorld sq w dt).bodies,
        Vec3.distanceTo sq b.position it.position < 2) →
      (∃ it2, ((update sq w dt).1.interactables)[k]? = some it2 ∧
        it2.collected = true) ∧
      (update sq w dt).2.count (Event.itemCollected k) = 1) := by
  refine ⟨fun it hk hc => update_keeps_collected sq w dt k it hk hc,
    fun items it hk hc => ?_,
    fun it hk hty hun hb => update_collects sq w dt k it hk hty hun hb⟩
  simp only [collectItem, hk]
  rw [if_neg (by rw [hc]; simp)]

/-- Witness for `c5_collection_terminal` at `collectWorld` (two bodies in
range of the same item in the same frame). -/
theorem c5_collection_terminal_witness :
    (∃ it2, ((update ratSqrt collectWorld (1/60)).1.interactables)[0]? = some it2 ∧
      it2.collected = true) ∧
    (update ratSqrt collectWorld (1/60)).2.count (Event.itemCollected 0) = 1 := by
  exact (c5_collection_terminal ratSqrt collectWorld (1/60) 0).2.2
    ⟨⟨0, 1, 0⟩, "item", false⟩ (by with_unfolding_all decide) rfl rfl
    ⟨(midWorld ratSqrt collectWorld (1/60)).bodies.head (by with_unfolding_all decide),
      by with_unfolding_all decide, by with_unfolding_all decide⟩

end ThreeGame
